import Mathlib

/-!
Verification of the data-alignment core in `verif/data.py` (class `Data`).

The development embeds the Python source shallowly:

* numpy float entries become the inductive type `Val` (`num q` for an ordinary
  finite value, `nan` for not-a-number, `inf` for an infinity; the sign of an
  infinity is never observed by the code under study, so it is not tracked);
* numpy arrays shaped (time, offset, location) become `Arr3`: explicit
  dimensions plus a total valuation function (reads outside the dimensions are
  never performed along any path exercised by a theorem, and theorems carry
  in-range hypotheses where indexing matters);
* Python lists and 1-d numpy arrays become `List`;
* fallible code (`verif.util.error`, numpy index errors, failed asserts)
  becomes `Except String`; `verif.util.error` raises a fatal configuration
  error, so an `Except.error` with the corresponding message models it;
* the mutable `Data` object becomes the state record `DState`, and the
  methods that mutate it (`_get_score` populates `self._cache` and — through a
  numpy view — the inputs' own arrays) become state-passing functions.
-/

/-- One numpy float entry: a finite value, not-a-number, or an infinity. -/
inductive Val where
  | num : ℚ → Val
  | nan : Val
  | inf : Val
deriving DecidableEq, Repr

/-- `np.isnan` on a single entry. -/
def Val.isnan : Val → Bool
  | .nan => true
  | _ => false

/-- `np.isinf` on a single entry. -/
def Val.isinf : Val → Bool
  | .inf => true
  | _ => false

/-- An entry is kept by `get_scores`: `(np.isnan(x) == 0) & (np.isinf(x) == 0)`. -/
def Val.valid (v : Val) : Bool := !v.isnan && !v.isinf

/-- IEEE-style addition as numpy performs it; the sign of infinities is not
tracked because no code path under verification observes it. -/
def Val.add : Val → Val → Val
  | .num a, .num b => .num (a + b)
  | .nan, _ => .nan
  | _, .nan => .nan
  | _, _ => .inf

/-- IEEE-style subtraction (`curr - clim`); `inf - inf` is `nan` in numpy, any
other combination involving an infinity stays infinite (sign untracked). -/
def Val.sub : Val → Val → Val
  | .num a, .num b => .num (a - b)
  | .nan, _ => .nan
  | _, .nan => .nan
  | .inf, .inf => .nan
  | _, _ => .inf

/-- IEEE-style division (`curr / clim`): `x/0` is `inf` for `x ≠ 0` and `nan`
for `0/0`; `num/inf = 0`; `inf/inf = nan`. -/
def Val.div : Val → Val → Val
  | .num a, .num b => if b = 0 then (if a = 0 then .nan else .inf) else .num (a / b)
  | .nan, _ => .nan
  | _, .nan => .nan
  | .inf, .inf => .nan
  | .inf, .num _ => .inf
  | .num _, .inf => .num 0

/-- A 3-d numpy array shaped (time, offset, location). -/
structure Arr3 where
  dT : ℕ
  dO : ℕ
  dL : ℕ
  val : ℕ → ℕ → ℕ → Val

/-- A 4-d numpy array shaped (time, offset, location, member-or-index). -/
structure Arr4 where
  dT : ℕ
  dO : ℕ
  dL : ℕ
  dM : ℕ
  val : ℕ → ℕ → ℕ → ℕ → Val

/-- A flattened (1-d) numpy array. -/
structure Arr1 where
  size : ℕ
  val : ℕ → Val

/-- `array4[:, :, :, m]` — slice the trailing axis at one index. -/
def slice4 (a : Arr4) (m : ℕ) : Arr3 :=
  ⟨a.dT, a.dO, a.dL, fun t o l => a.val t o l m⟩

/-
## Index Intersector: `Data._get_common_indices`

`np.intersect1d(values, temp)` returns the sorted unique values present in
both arguments; `np.sort` sorts ascending.  Both are modelled with Mathlib's
`insertionSort` (any correct ascending sort is extensionally the same
function on the lists involved, and only sortedness and membership are used).
-/

/-- `np.sort` — ascending sort. -/
def npSort {α : Type} [LinearOrder α] (l : List α) : List α :=
  List.insertionSort (· ≤ ·) l

/-- `np.intersect1d a b` — sorted unique values occurring in both `a` and `b`. -/
def npIntersect1d {α : Type} [LinearOrder α] (a b : List α) : List α :=
  npSort ((a.filter (fun x => decide (x ∈ b))).dedup)

/-- The running-intersection loop of `_get_common_indices` once `values` is no
longer `None`: `for file in files: values = np.intersect1d(values, temp)`. -/
def commonValuesAux {α : Type} [LinearOrder α] (seed : List α) (files : List (List α)) : List α :=
  files.foldl npIntersect1d seed

/-- The `values` accumulator of `_get_common_indices` before the final
`np.sort`: seeded with `aux` when given, otherwise with the first file's raw
values (the `if values is None` branch fires exactly on the first iteration).
With no files and no `aux` the Python code would crash on `np.sort(None)`;
`Data.__init__` always passes at least one input, so that branch is modelled
as the empty list and excluded by hypothesis in the theorems. -/
def commonValuesRaw {α : Type} [LinearOrder α] (files : List (List α)) (aux : Option (List α)) : List α :=
  match aux, files with
  | some a, fs => commonValuesAux a fs
  | none, f0 :: rest => commonValuesAux f0 rest
  | none, [] => []

/-- The sorted common value list computed by `_get_common_indices`
(`values = np.sort(values)`). -/
def commonValues {α : Type} [LinearOrder α] (files : List (List α)) (aux : Option (List α)) : List α :=
  npSort (commonValuesRaw files aux)

/-- `np.where(v == temp)[0]` — all positions of `temp` holding the value `v`. -/
def npWhereEq {α : Type} [DecidableEq α] (temp : List α) (v : α) : List ℕ :=
  (List.range temp.length).filter (fun j => decide (temp.get? j = some v))

/-- The per-file index array `II` of `_get_common_indices`:

    I = np.where(np.in1d(temp, values))[0]
    II = np.zeros(len(I), 'int')
    for i in range(0, len(I)):
       II[i] = np.where(values[i] == temp)[0]

Only `len(I)` is used, which equals the number of entries of `temp` that lie
in `values`.  `values[i]` for `i` out of range raises an IndexError, and
assigning a numpy vector whose length is not 1 to the scalar slot `II[i]`
raises a ValueError; both are modelled by `none`. -/
def mkII {α : Type} [DecidableEq α] (temp values : List α) : Option (List ℕ) :=
  (List.range ((temp.filter (fun x => decide (x ∈ values))).length)).mapM (fun i =>
    match values.get? i with
    | none => none
    | some v =>
      match npWhereEq temp v with
      | [j] => some j
      | _ => none)

/-- `_get_common_indices` proper: the common sorted values together with one
index array per file (`indices` in the source).  The location dimension is
represented by the integer ids already, matching
`temp = [loc.id for loc in locations]`. -/
def getCommonIndices {α : Type} [LinearOrder α] (files : List (List α)) (aux : Option (List α)) :
    List (Option (List ℕ)) :=
  let values := commonValues files aux
  files.map (fun temp => mkII temp values)

/-! ### Lemmas about the intersector -/

theorem mem_npSort {α : Type} [LinearOrder α] {l : List α} {x : α} :
    x ∈ npSort l ↔ x ∈ l :=
  (List.perm_insertionSort _ l).mem_iff

theorem sorted_npSort {α : Type} [LinearOrder α] (l : List α) :
    List.Sorted (· ≤ ·) (npSort l) :=
  List.sorted_insertionSort _ l

theorem nodup_npSort {α : Type} [LinearOrder α] {l : List α} (h : l.Nodup) :
    (npSort l).Nodup :=
  (List.perm_insertionSort _ l).nodup_iff.mpr h

theorem mem_npIntersect1d {α : Type} [LinearOrder α] {a b : List α} {x : α} :
    x ∈ npIntersect1d a b ↔ x ∈ a ∧ x ∈ b := by
  unfold npIntersect1d
  rw [mem_npSort, List.mem_dedup, List.mem_filter, decide_eq_true_eq]

theorem nodup_npIntersect1d {α : Type} [LinearOrder α] (a b : List α) :
    (npIntersect1d a b).Nodup :=
  nodup_npSort (List.nodup_dedup _)

theorem mem_commonValuesAux {α : Type} [LinearOrder α] (files : List (List α)) (seed : List α)
    (x : α) : x ∈ commonValuesAux seed files ↔ x ∈ seed ∧ ∀ f ∈ files, x ∈ f := by
  induction files generalizing seed with
  | nil => simp [commonValuesAux]
  | cons f0 rest ih =>
    show x ∈ commonValuesAux (npIntersect1d seed f0) rest ↔ _
    rw [ih]
    simp [mem_npIntersect1d, and_assoc]

theorem nodup_commonValuesAux {α : Type} [LinearOrder α] (files : List (List α)) (seed : List α)
    (h : seed.Nodup) : (commonValuesAux seed files).Nodup := by
  induction files generalizing seed with
  | nil => exact h
  | cons f0 rest ih => exact ih _ (nodup_npIntersect1d seed f0)

theorem mem_commonValues {α : Type} [LinearOrder α] (files : List (List α))
    (aux : Option (List α)) (hne : files ≠ []) (x : α) :
    x ∈ commonValues files aux ↔ (∀ f ∈ files, x ∈ f) ∧ ∀ a, aux = some a → x ∈ a := by
  unfold commonValues commonValuesRaw
  rcases aux with _ | a
  · rcases files with _ | ⟨f0, rest⟩
    · exact absurd rfl hne
    · rw [mem_npSort, mem_commonValuesAux]
      simp [List.forall_mem_cons, and_assoc]
  · rw [mem_npSort, mem_commonValuesAux]
    simp [and_comm]

theorem nodup_commonValues {α : Type} [LinearOrder α] (files : List (List α))
    (aux : Option (List α)) (hne : files ≠ []) (hnd : ∀ f ∈ files, f.Nodup) :
    (commonValues files aux).Nodup := by
  unfold commonValues commonValuesRaw
  rcases aux with _ | a
  · rcases files with _ | ⟨f0, rest⟩
    · exact absurd rfl hne
    · exact nodup_npSort (nodup_commonValuesAux rest f0 (hnd f0 (List.mem_cons_self f0 rest)))
  · rcases files with _ | ⟨f0, rest⟩
    · exact absurd rfl hne
    · exact nodup_npSort (nodup_commonValuesAux rest (npIntersect1d a f0) (nodup_npIntersect1d a f0))

theorem nodup_eq_singleton {α : Type} {l : List α} {j : α} (hnd : l.Nodup)
    (h : ∀ x, x ∈ l ↔ x = j) : l = [j] := by
  cases l with
  | nil => exact absurd ((h j).mpr rfl) (List.not_mem_nil j)
  | cons a t =>
    have ha : a = j := (h a).mp (List.mem_cons_self a t)
    subst ha
    cases t with
    | nil => rfl
    | cons b t2 =>
      have hb : b = a := (h b).mp (List.mem_cons_of_mem a (List.mem_cons_self b t2))
      exact absurd (List.mem_cons.mpr (Or.inl hb.symm)) (List.nodup_cons.mp hnd).1

theorem npWhereEq_singleton {α : Type} [DecidableEq α] {temp : List α} {v : α}
    (hnd : temp.Nodup) (hv : v ∈ temp) :
    npWhereEq temp v = [temp.indexOf v] := by
  apply nodup_eq_singleton (List.Nodup.filter _ (List.nodup_range _))
  intro j
  rw [List.mem_filter, List.mem_range, decide_eq_true_eq]
  constructor
  · rintro ⟨hj, hget⟩
    rcases List.get?_eq_some.mp hget with ⟨hj2, hget2⟩
    have hidx := @List.indexOf_get _ _ v temp (List.indexOf_lt_length.mpr hv)
    have hinj := List.nodup_iff_injective_get.mp hnd
    have := @hinj ⟨j, hj2⟩
      ⟨temp.indexOf v, List.indexOf_lt_length.mpr hv⟩ (by rw [hget2, hidx])
    exact congrArg Fin.val this
  · rintro rfl
    exact ⟨List.indexOf_lt_length.mpr hv, List.indexOf_get? hv⟩

theorem mapM_option_map {α β : Type} (l : List α) (f : α → Option β) (g : α → β)
    (h : ∀ x ∈ l, f x = some (g x)) : l.mapM f = some (l.map g) := by
  induction l with
  | nil => rfl
  | cons a t ih =>
    rw [List.mapM_cons, h a (List.mem_cons_self a t),
      ih (fun x hx => h x (List.mem_cons_of_mem a hx))]
    rfl

theorem filter_mem_length {α : Type} [DecidableEq α] {temp values : List α}
    (ht : temp.Nodup) (hv : values.Nodup) (hsub : ∀ x ∈ values, x ∈ temp) :
    (temp.filter (fun x => decide (x ∈ values))).length = values.length := by
  apply List.Perm.length_eq
  apply List.perm_of_nodup_nodup_toFinset_eq (List.Nodup.filter _ ht) hv
  ext x
  simp only [List.mem_toFinset, List.mem_filter, decide_eq_true_eq]
  exact ⟨fun h => h.2, fun h => ⟨hsub x h, h⟩⟩

theorem mkII_spec {α : Type} [DecidableEq α] (temp values : List α)
    (ht : temp.Nodup) (hv : values.Nodup) (hsub : ∀ x ∈ values, x ∈ temp) :
    ∃ II, mkII temp values = some II ∧ II.map (fun j => temp.get? j) = values.map some := by
  classical
  set g : ℕ → ℕ := fun i =>
    match values.get? i with
    | some v => temp.indexOf v
    | none => 0 with hgdef
  refine ⟨(List.range values.length).map g, ?_, ?_⟩
  · unfold mkII
    rw [filter_mem_length ht hv hsub]
    apply mapM_option_map
    intro i hi
    rw [List.mem_range] at hi
    have hvi : values.get? i = some (values.get ⟨i, hi⟩) := List.get?_eq_get hi
    have hmem : values.get ⟨i, hi⟩ ∈ temp := hsub _ (values.get_mem i hi)
    rw [hvi]
    show (match npWhereEq temp (values.get ⟨i, hi⟩) with
      | [j] => some j
      | _ => none) = some (g i)
    rw [npWhereEq_singleton ht hmem]
    show some (temp.indexOf (values.get ⟨i, hi⟩)) = some (g i)
    rw [hgdef]
    simp only [hvi]
  · apply List.ext_get?
    intro n
    rw [List.get?_map, List.get?_map, List.get?_map]
    by_cases hn : n < values.length
    · rw [List.get?_range hn, List.get?_eq_get hn]
      have hvi : values.get? n = some (values.get ⟨n, hn⟩) := List.get?_eq_get hn
      have hmem : values.get ⟨n, hn⟩ ∈ temp := hsub _ (values.get_mem n hn)
      simp only [Option.map_some', hgdef, hvi]
      rw [List.indexOf_get? hmem]
    · have h1 : values.get? n = none := List.get?_eq_none.mpr (by omega)
      have h2 : (List.range values.length).get? n = none :=
        List.get?_eq_none.mpr (by simp only [List.length_range]; omega)
      rw [h1, h2]
      rfl

/-- Claim C1: for every list of sources whose raw value sequences for a
dimension contain no duplicates, the common value set computed by
`_get_common_indices` equals the exact set intersection of all sources' raw
values (further intersected with the auxiliary allow-list when one is
supplied), sorted ascending; and for every source the index array `II`
satisfies `rawValues[II] == commonValues` elementwise, in the common set's
sorted order. -/
theorem claim_C1 {α : Type} [LinearOrder α] (files : List (List α)) (aux : Option (List α))
    (hne : files ≠ []) (hnd : ∀ f ∈ files, f.Nodup) :
    List.Sorted (· ≤ ·) (commonValues files aux) ∧
    (commonValues files aux).Nodup ∧
    (∀ x, x ∈ commonValues files aux ↔ (∀ f ∈ files, x ∈ f) ∧ ∀ a, aux = some a → x ∈ a) ∧
    getCommonIndices files aux = files.map (fun temp => mkII temp (commonValues files aux)) ∧
    (∀ f ∈ files, ∃ II, mkII f (commonValues files aux) = some II ∧
      II.map (fun j => f.get? j) = (commonValues files aux).map some) := by
  refine ⟨sorted_npSort _, nodup_commonValues files aux hne hnd,
    mem_commonValues files aux hne, rfl, ?_⟩
  intro f hf
  apply mkII_spec f (commonValues files aux) (hnd f hf)
    (nodup_commonValues files aux hne hnd)
  intro x hx
  exact ((mem_commonValues files aux hne x).mp hx).1 f hf

/-- Concrete instantiation of `claim_C1`: two sources with raw values
`[3, 1, 2]` and `[2, 3, 5]` and auxiliary allow-list `[3, 2, 7]`; the
hypotheses are discharged by computation. -/
theorem claim_C1_witness :
    (([[3, 1, 2], [2, 3, 5]] : List (List ℤ)) ≠ [] ∧
      ∀ f ∈ ([[3, 1, 2], [2, 3, 5]] : List (List ℤ)), f.Nodup) ∧
    (List.Sorted (· ≤ ·) (commonValues ([[3, 1, 2], [2, 3, 5]] : List (List ℤ)) (some [3, 2, 7])) ∧
    (commonValues ([[3, 1, 2], [2, 3, 5]] : List (List ℤ)) (some [3, 2, 7])).Nodup ∧
    (∀ x, x ∈ commonValues ([[3, 1, 2], [2, 3, 5]] : List (List ℤ)) (some [3, 2, 7]) ↔
      (∀ f ∈ ([[3, 1, 2], [2, 3, 5]] : List (List ℤ)), x ∈ f) ∧
      ∀ a, (some [3, 2, 7] : Option (List ℤ)) = some a → x ∈ a) ∧
    getCommonIndices ([[3, 1, 2], [2, 3, 5]] : List (List ℤ)) (some [3, 2, 7]) =
      ([[3, 1, 2], [2, 3, 5]] : List (List ℤ)).map
        (fun temp => mkII temp (commonValues ([[3, 1, 2], [2, 3, 5]] : List (List ℤ)) (some [3, 2, 7]))) ∧
    (∀ f ∈ ([[3, 1, 2], [2, 3, 5]] : List (List ℤ)), ∃ II,
      mkII f (commonValues ([[3, 1, 2], [2, 3, 5]] : List (List ℤ)) (some [3, 2, 7])) = some II ∧
      II.map (fun j => f.get? j) =
        (commonValues ([[3, 1, 2], [2, 3, 5]] : List (List ℤ)) (some [3, 2, 7])).map some)) :=
  ⟨⟨by decide, by decide⟩, claim_C1 [[3, 1, 2], [2, 3, 5]] (some [3, 2, 7]) (by decide) (by decide)⟩

/-!
## Window Calculator: `Data._calculate_window`

    def _calculate_window(self, array, offsets):
       O = array.shape[1]
       Inan = np.isnan(array)
       for o in range(0, O):
          threshold = 0.5
          q = np.nansum(np.cumsum(array[:,o:,:], axis=1) <= threshold, axis=1)
          I = q+o
          I[I >= O] = O-1
          array[:,o,:] = offsets[I] - offsets[o]
       array[Inan] = np.nan
       return array

The loop writes the array in place, but at iteration `o` it only reads
`array[:, o:, :]` — columns `≥ o`, which previous iterations (they wrote
columns `< o`) have not touched.  The value written at offset `o` is
therefore a pure function of the ORIGINAL array, and the in-place update is
embedded as the pure function `calcWindow` below.  The final
`array[Inan] = np.nan` restore is the `isnan` guard.  The float literal 0.5
is exactly the rational 1/2.
-/

/-- `np.cumsum` with an accumulator starting at `c` (numpy propagates NaN once
it appears, which `Val.add` does). -/
def valSum (l : List Val) : Val := l.foldl Val.add (.num 0)

/-- `np.cumsum` along a 1-d slice: entry `j` is the sum of the first `j + 1`
entries (NaN-propagating, as plain `np.cumsum` is). -/
def cumsumVal (l : List Val) : List Val :=
  (List.range l.length).map (fun j => valSum (l.take (j + 1)))

/-- `x <= 0.5` on one entry as numpy evaluates it: False for NaN.  The
unsigned `inf` is treated as +inf; no claim exercises infinite entries in the
window transform. -/
def valLeHalf (v : Val) : Bool :=
  match v with
  | .num a => decide (a ≤ 1 / 2)
  | _ => false

/-- One column of a 3-d array along the offset axis: `array[t, :, l]`. -/
def colOf (a : Arr3) (t l : ℕ) : List Val :=
  (List.range a.dO).map (fun j => a.val t j l)

/-- `q = np.nansum(np.cumsum(array[:,o:,:], axis=1) <= threshold, axis=1)` at
one (time, location): the number of positions of the column tail whose
cumulative sum is at most 0.5 (a NaN entry compares False, and `nansum` of a
boolean array is the count of True). -/
def windowQ (col : List Val) (o : ℕ) : ℕ :=
  ((cumsumVal (col.drop o)).filter valLeHalf).length

/-- `Data._calculate_window`, as the pure function of the original array which
the in-place loop computes (see the section comment).  `I = q+o` clamped by
`I[I >= O] = O-1`, and the written entry is `offsets[I] - offsets[o]`. -/
def calcWindow (a : Arr3) (offsets : List ℚ) : Arr3 :=
  ⟨a.dT, a.dO, a.dL, fun t o l =>
    if (a.val t o l).isnan then .nan
    else
      .num (offsets.getD
        (if a.dO ≤ windowQ (colOf a t l) o + o then a.dO - 1 else windowQ (colOf a t l) o + o) 0
        - offsets.getD o 0)⟩

/-- Partial sums of a rational sequence: `partialSum v j` sums entries `0..j`. -/
def partialSum (v : ℕ → ℚ) (j : ℕ) : ℚ := ((List.range (j + 1)).map v).sum

/-! ### Lemmas about the window calculator -/

theorem partialSum_succ (v : ℕ → ℚ) (j : ℕ) :
    partialSum v (j + 1) = partialSum v j + v (j + 1) := by
  unfold partialSum
  rw [List.range_succ, List.map_append, List.sum_append]
  simp

theorem partialSum_mono {v : ℕ → ℚ} {n : ℕ} (hmono : ∀ j, j < n - 1 → partialSum v j < partialSum v (j + 1))
    {i j : ℕ} (hij : i ≤ j) (hj : j < n) : partialSum v i ≤ partialSum v j := by
  induction j with
  | zero => simpa [Nat.le_zero.mp hij]
  | succ m ih =>
    rcases Nat.lt_or_ge i (m + 1) with h | h
    · have : partialSum v i ≤ partialSum v m := ih (Nat.lt_succ_iff.mp h) (by omega)
      exact le_trans this (le_of_lt (hmono m (by omega)))
    · have : i = m + 1 := le_antisymm hij h
      simp [this]

theorem foldl_add_num (l : List ℚ) (c : ℚ) :
    (l.map Val.num).foldl Val.add (.num c) = .num (c + l.sum) := by
  induction l generalizing c with
  | nil => simp
  | cons x t ih =>
    simp only [List.map_cons, List.foldl_cons, Val.add, ih, List.sum_cons]
    ring_nf

theorem valSum_map_num (l : List ℚ) : valSum (l.map Val.num) = .num l.sum := by
  unfold valSum
  rw [foldl_add_num]
  simp

theorem cumsumVal_map_num (n : ℕ) (v : ℕ → ℚ) :
    cumsumVal ((List.range n).map (fun j => Val.num (v j))) =
      (List.range n).map (fun j => Val.num (partialSum v j)) := by
  unfold cumsumVal
  rw [List.length_map, List.length_range]
  apply List.map_congr_left
  intro j hj
  rw [List.mem_range] at hj
  rw [← List.map_take, List.take_range, Nat.min_eq_left (by omega)]
  rw [show ((List.range (j + 1)).map (fun i => Val.num (v i))) = ((List.range (j + 1)).map v).map Val.num by
    rw [List.map_map]; rfl]
  rw [valSum_map_num]
  rfl

theorem filter_range_length_lt (n m : ℕ) (p : ℕ → Bool)
    (hp : ∀ j, j < n → (p j = true ↔ j < m)) :
    ((List.range n).filter p).length = min m n := by
  induction n with
  | zero => simp
  | succ n ih =>
    rw [List.range_succ, List.filter_append, List.length_append]
    rw [ih (fun j hj => hp j (by omega))]
    by_cases hn : n < m
    · have : p n = true := (hp n (by omega)).mpr hn
      simp [this]
      omega
    · have : p n = false := by
        rcases Bool.eq_false_or_eq_true (p n) with h | h
        · exact absurd ((hp n (by omega)).mp h) hn
        · exact h
      simp [this]
      omega

theorem range_drop (n o : ℕ) : (List.range n).drop o = (List.range (n - o)).map (o + ·) := by
  apply List.ext_get?
  intro i
  rw [List.get?_drop, List.get?_map]
  by_cases hi : o + i < n
  · rw [List.get?_range hi, List.get?_range (by omega)]
    rfl
  · rw [List.get?_eq_none.mpr (by simp [List.length_range]; omega),
      List.get?_eq_none.mpr (by simp [List.length_range]; omega)]
    rfl

theorem windowQ_eq (a : Arr3) (t l o k : ℕ) (v : ℕ → ℚ)
    (ho : o < a.dO)
    (hnum : ∀ j, j < a.dO - o → a.val t (o + j) l = .num (v j))
    (hmono : ∀ j, j < a.dO - o - 1 → partialSum v j < partialSum v (j + 1))
    (hlo : ∀ j, j < min k (a.dO - o) → partialSum v j ≤ 1 / 2)
    (hhi : o + k < a.dO → 1 / 2 < partialSum v k) :
    windowQ (colOf a t l) o = min k (a.dO - o) := by
  unfold windowQ colOf
  rw [← List.map_drop, range_drop, List.map_map]
  have hcol : (List.range (a.dO - o)).map ((fun j => a.val t j l) ∘ (o + ·)) =
      (List.range (a.dO - o)).map (fun j => Val.num (v j)) := by
    apply List.map_congr_left
    intro j hj
    rw [List.mem_range] at hj
    exact hnum j hj
  rw [hcol, cumsumVal_map_num, List.filter_map, List.length_map]
  have hp : ∀ j, j < a.dO - o →
      ((valLeHalf ∘ fun j => Val.num (partialSum v j)) j = true ↔ j < min k (a.dO - o)) := by
    intro j hj
    constructor
    · intro hp2
      have hS : partialSum v j ≤ 1 / 2 := by
        simpa [Function.comp, valLeHalf] using hp2
      by_contra hcon
      have hjk : k ≤ j := by omega
      have hk : 1 / 2 < partialSum v k := hhi (by omega)
      have : partialSum v k ≤ partialSum v j :=
        partialSum_mono hmono hjk hj
      linarith
    · intro hj2
      have := hlo j hj2
      simpa [Function.comp, valLeHalf]
  rw [filter_range_length_lt (a.dO - o) (min k (a.dO - o)) _ hp]
  omega

/-- Claim C4: the window transform keeps the input shape, maps every NaN input
position to a NaN output, and for a column whose cumulative sum from origin
`o` is strictly increasing and first exceeds the 0.5 threshold at relative
step `k`, the output at offset `o` is `offsets[min(o+k, lastIndex)] -
offsets[o]`. -/
theorem claim_C4 (a : Arr3) (offsets : List ℚ) (t o l k : ℕ) (v : ℕ → ℚ)
    (ho : o < a.dO)
    (hnum : ∀ j, j < a.dO - o → a.val t (o + j) l = .num (v j))
    (hmono : ∀ j, j < a.dO - o - 1 → partialSum v j < partialSum v (j + 1))
    (hlo : ∀ j, j < min k (a.dO - o) → partialSum v j ≤ 1 / 2)
    (hhi : o + k < a.dO → 1 / 2 < partialSum v k) :
    ((calcWindow a offsets).dT = a.dT ∧ (calcWindow a offsets).dO = a.dO ∧
      (calcWindow a offsets).dL = a.dL) ∧
    (∀ t2 o2 l2, (a.val t2 o2 l2).isnan = true →
      ((calcWindow a offsets).val t2 o2 l2).isnan = true) ∧
    (calcWindow a offsets).val t o l =
      .num (offsets.getD (min (o + k) (a.dO - 1)) 0 - offsets.getD o 0) := by
  refine ⟨⟨rfl, rfl, rfl⟩, ?_, ?_⟩
  · intro t2 o2 l2 h
    simp only [calcWindow, h, if_true]
    rfl
  · have hq := windowQ_eq a t l o k v ho hnum hmono hlo hhi
    have hv0 := hnum 0 (by omega)
    rw [Nat.add_zero] at hv0
    have hnn : (a.val t o l).isnan = false := by rw [hv0]; rfl
    show (if (a.val t o l).isnan then Val.nan else _) = _
    rw [hnn, if_neg (by simp), hq]
    have hx : (if a.dO ≤ min k (a.dO - o) + o then a.dO - 1 else min k (a.dO - o) + o) =
        min (o + k) (a.dO - 1) := by
      rcases Nat.le_total k (a.dO - o) with h | h <;> split <;> omega
    rw [hx]

/-- Concrete 1 x 3 x 1 input for the window-calculator claim: column values
0.2, 0.4, 0.6, whose cumulative sums 0.2, 0.6, 1.2 first exceed 0.5 at
relative step 1 from origin 0. -/
def wArr : Arr3 :=
  ⟨1, 3, 1, fun _ o _ => if o = 0 then .num (2 / 10) else if o = 1 then .num (4 / 10)
    else .num (6 / 10)⟩

/-- Offsets for the window-calculator witness. -/
def wOffsets : List ℚ := [0, 1, 2]

/-- Column values for the window-calculator witness. -/
def wv : ℕ → ℚ := fun j => if j = 0 then 2 / 10 else if j = 1 then 4 / 10 else 6 / 10

/-- Concrete instantiation of `claim_C4` at `wArr`, origin 0, crossing step 1:
all hypotheses are discharged by computation, and the output at offset 0 is
`offsets[1] - offsets[0]`. -/
theorem claim_C4_witness :
    ((0 : ℕ) < wArr.dO ∧
      (∀ j, j < wArr.dO - 0 → wArr.val 0 (0 + j) 0 = .num (wv j)) ∧
      (∀ j, j < wArr.dO - 0 - 1 → partialSum wv j < partialSum wv (j + 1)) ∧
      (∀ j, j < min 1 (wArr.dO - 0) → partialSum wv j ≤ 1 / 2) ∧
      (0 + 1 < wArr.dO → 1 / 2 < partialSum wv 1)) ∧
    (calcWindow wArr wOffsets).val 0 0 0 =
      .num (wOffsets.getD (min (0 + 1) (wArr.dO - 1)) 0 - wOffsets.getD 0 0) :=
  ⟨⟨by decide, by with_unfolding_all decide, by with_unfolding_all decide,
      by with_unfolding_all decide, by with_unfolding_all decide⟩,
    (claim_C4 wArr wOffsets 0 0 0 1 wv (by decide) (by with_unfolding_all decide)
      (by with_unfolding_all decide) (by with_unfolding_all decide)
      (by with_unfolding_all decide)).2.2⟩

/-!
## Data model: sources, fields, and the `Data` object state
-/

/-- A location as consumed through the Source interface: integer id and
float lat/lon/elevation. -/
structure Location where
  id : ℤ
  lat : ℚ
  lon : ℚ
  elev : ℚ
deriving DecidableEq, Repr

instance : Inhabited Location := ⟨⟨0, 0, 0, 0⟩⟩

/-- A `verif.field` identifier; equality is by tag and payload
(`Obs`, `Fcst`, `Ensemble(member)`, `Threshold(value)`, `Quantile(value)`,
`ObsWindow`, `FcstWindow`). -/
inductive VField where
  | obs
  | fcst
  | ensemble (member : ℕ)
  | threshold (v : ℚ)
  | quantile (v : ℚ)
  | obsWindow
  | fcstWindow
deriving DecidableEq, Repr

instance : Inhabited Arr3 := ⟨⟨0, 0, 0, fun _ _ _ => .nan⟩⟩

instance : Inhabited Arr4 := ⟨⟨0, 0, 0, 0, fun _ _ _ _ => .nan⟩⟩

instance : Inhabited Arr1 := ⟨⟨0, fun _ => .nan⟩⟩

/-- One `verif.input` as consumed by `Data` (read interface of §6 of the
spec): raw dimension sequences, the declared-field catalog
(`input.get_variables()`, stored as `vars`), and the raw data arrays. -/
structure Input where
  times : List ℤ
  offsets : List ℚ
  locations : List Location
  thresholds : List ℚ
  quantiles : List ℚ
  vars : List VField
  obs : Arr3
  fcst : Arr3
  ensemble : Arr4
  thresholdScores : Arr4
  quantileScores : Arr4

instance : Inhabited Input :=
  ⟨⟨[], [], [], [], [], [], default, default, default, default, default⟩⟩

/-- The cache dictionary of one input: `self._cache[i]`, a mapping from field
to the loaded-and-trimmed array. -/
def FieldCache : Type := VField → Option Arr3

/-- A fresh `dict()`. -/
def emptyCache : FieldCache := fun _ => none

/-- `self._cache[i][field] = temp`. -/
def cacheInsert (c : FieldCache) (f : VField) (a : Arr3) : FieldCache :=
  fun g => if g = f then some a else c g

/-- The `Data` object state after construction.  `inputs` is `self._inputs`
(climatology appended at the end when configured), `cache` is `self._cache`,
the three `...I` lists are `self._timesI` / `_offsetsI` / `_locationsI`,
`times`/`offsets`/`locationsC` are the canonical axes, `months`/`years` the
derived buckets, and `obsField`/`fcstField` the configured field adapters. -/
structure DState where
  inputs : List Input
  cache : List FieldCache
  timesI : List (List ℕ)
  offsetsI : List (List ℕ)
  locationsI : List (List ℕ)
  hasClim : Bool
  climType : String
  removeMissingAcrossAll : Bool
  obsField : VField
  fcstField : VField
  times : List ℤ
  offsets : List ℚ
  locationsC : List Location
  months : List ℤ
  years : List ℤ
  legend : Option (List String)

/-- `self.num_inputs = len(self._inputs) - (self._clim is not None)`. -/
def DState.numInputs (st : DState) : ℕ :=
  st.inputs.length - (if st.hasClim then 1 else 0)

/-- `self._cache[i][f]` as an Option. -/
def cacheLookup (st : DState) (i : ℕ) (f : VField) : Option Arr3 :=
  (st.cache.getD i emptyCache) f

/-- The cached array itself (callers establish that the entry exists). -/
def cacheArr (st : DState) (i : ℕ) (f : VField) : Arr3 :=
  (cacheLookup st i f).getD default

/-!
## VField Cache: `Data._get_score`
-/

/-- Trim a raw array to the common indices of input `i`:
`temp[Itimes,:,:]`, then `temp[:,Ioffsets,:]`, then `temp[:,:,Ilocations]` —
three independent fancy-indexing copies.  Every index produced by the
intersector is within range; out-of-range reads (which numpy would reject)
default to position 0 and are excluded by the theorems' hypotheses. -/
def trim3 (a : Arr3) (It Io Il : List ℕ) : Arr3 :=
  ⟨It.length, Io.length, Il.length,
    fun t o l => a.val (It.getD t 0) (Io.getD o 0) (Il.getD l 0)⟩

/-- The sequential field aliasing at the top of `_get_score`:
`if field == Obs(): field = self._obs_field` followed by
`if field == Fcst(): field = self._fcst_field` (the second test sees the
result of the first, exactly as in the source). -/
def aliasField (st : DState) (f : VField) : VField :=
  let f1 := if f = .obs then st.obsField else f
  if f1 = .fcst then st.fcstField else f1

/-- The per-field raw-array selection of `_get_score`, returning the selected
array together with the input as it stands AFTER the selection.
`input.obs[:, :, :]` is a numpy VIEW of the input's own array, and
`_calculate_window` writes through it, so loading a window field overwrites
the input's `obs`/`fcst` with the transformed array; every other selection is
read-only (the later fancy indexing copies).  For threshold/quantile fields,
`temp = scores[:, :, :, I]` with the length-1 index vector `I` keeps a
trailing singleton axis which every later operation treats pointwise, so it
is embedded as the plain 3-d slice; a match count different from 1 fails the
source's `assert(len(I) == 1)`. -/
def selectField (inp : Input) (f : VField) : Except String (Arr3 × Input) :=
  match f with
  | .obs => .ok (inp.obs, inp)
  | .fcst => .ok (inp.fcst, inp)
  | .ensemble m => .ok (slice4 inp.ensemble m, inp)
  | .threshold v =>
    match npWhereEq inp.thresholds v with
    | [j] => .ok (slice4 inp.thresholdScores j, inp)
    | _ => .error "AssertionError: threshold index not unique"
  | .quantile v =>
    match npWhereEq inp.quantiles v with
    | [j] => .ok (slice4 inp.quantileScores j, inp)
    | _ => .error "AssertionError: quantile index not unique"
  | .obsWindow =>
    .ok (calcWindow inp.obs inp.offsets, { inp with obs := calcWindow inp.obs inp.offsets })
  | .fcstWindow =>
    .ok (calcWindow inp.fcst inp.offsets, { inp with fcst := calcWindow inp.fcst inp.offsets })

/-- `all_variables = input.get_variables() + [ObsWindow(), FcstWindow()]` and
the containment test `field not in all_variables`. -/
def availableIn (inp : Input) (f : VField) : Bool :=
  decide (f ∈ inp.vars ++ [VField.obsWindow, VField.fcstWindow])

/-- One iteration of the load loop of `_get_score` (input index `i`): skip
when cached, otherwise check availability, select the raw array, trim it to
the common indices, and cache it. -/
def loadOne (st : DState) (f : VField) (i : ℕ) : Except String DState :=
  match (st.cache.getD i emptyCache) f with
  | some _ => .ok st
  | none =>
    if availableIn (st.inputs.getD i default) f then
      match selectField (st.inputs.getD i default) f with
      | .error e => .error e
      | .ok (raw, inp2) =>
        .ok { st with
          inputs := st.inputs.set i inp2,
          cache := st.cache.set i
            (cacheInsert (st.cache.getD i emptyCache) f
              (trim3 raw (st.timesI.getD i []) (st.offsetsI.getD i [])
                (st.locationsI.getD i []))) }
    else .error "input does not contain the requested field"

/-- `for i in range(0, self._get_num_inputs_with_clim()): ...` — load the
field for every input that does not yet have it cached. -/
def loadLoop (st : DState) (f : VField) : Except String DState :=
  (List.range st.inputs.length).foldlM (fun s i => loadOne s f i) st

/-- Mask an array to NaN wherever the missing flag is set. -/
def maskArr (miss : ℕ → ℕ → ℕ → Bool) (a : Arr3) : Arr3 :=
  ⟨a.dT, a.dO, a.dL, fun t o l => if miss t o l then .nan else a.val t o l⟩

/-- The union missing mask `is_missing` of `_get_score`: the elementwise OR
of `np.isnan` over every input's cached array for the field (the source
starts from index 0 and ORs indices 1 and up, which is the same OR). -/
def missingMask (st : DState) (f : VField) : ℕ → ℕ → ℕ → Bool :=
  fun t o l => (List.range st.inputs.length).any (fun m => ((cacheArr st m f).val t o l).isnan)

/-- The cross-source missingness propagation of `_get_score`: for every input
set the cached array for `f` to NaN wherever any input's cached array is NaN
(the in-place `self._cache[i][field][is_missing] = np.nan`); a no-op when
`remove_missing_across_all` is off.  The loop runs over the input indices,
and `self._cache` has exactly one dictionary per input. -/
def propagate (st : DState) (f : VField) : DState :=
  if st.removeMissingAcrossAll then
    { st with cache := (List.range st.cache.length).map (fun i =>
        if i < st.inputs.length then
          (fun g => if g = f then ((st.cache.getD i emptyCache) g).map (maskArr (missingMask st f))
            else (st.cache.getD i emptyCache) g)
        else st.cache.getD i emptyCache) }
  else st

/-- `Data._get_score`: return the cached trimmed array for (field, input),
loading the field for EVERY input on a cache miss and then propagating
missingness.  The early cache test uses the UN-aliased field; the load, the
propagation and the final lookup use the aliased one, exactly as in the
source. -/
def getScore (st : DState) (field : VField) (ii : ℕ) : Except String (Arr3 × DState) :=
  match (st.cache.getD ii emptyCache) field with
  | some a => .ok (a, st)
  | none =>
    match loadLoop st (aliasField st field) with
    | .error e => .error e
    | .ok st1 =>
      let st2 := propagate st1 (aliasField st field)
      match (st2.cache.getD ii emptyCache) (aliasField st field) with
      | some a => .ok (a, st2)
      | none => .error "KeyError: field missing from cache"

/-!
## Claim C2: frame effect of loading a window field
-/

/-- A 1 x 2 x 1 observation array with both entries 1.0. -/
def c2Obs : Arr3 := ⟨1, 2, 1, fun _ _ _ => .num 1⟩

/-- A single source: one time, two offsets, one location, observations 1.0. -/
def c2Input : Input :=
  { times := [0], offsets := [0, 1], locations := [⟨1, 0, 0, 0⟩],
    thresholds := [], quantiles := [],
    vars := [.obs, .fcst], obs := c2Obs, fcst := c2Obs,
    ensemble := default, thresholdScores := default, quantileScores := default }

/-- The aligned-dataset state over `c2Input` alone, with every index common. -/
def c2State : DState :=
  { inputs := [c2Input], cache := [emptyCache],
    timesI := [[0]], offsetsI := [[0, 1]], locationsI := [[0]],
    hasClim := false, climType := "subtract", removeMissingAcrossAll := true,
    obsField := .obs, fcstField := .fcst,
    times := [0], offsets := [0, 1], locationsC := [⟨1, 0, 0, 0⟩],
    months := [0], years := [0], legend := none }

/-- Claim C2 is violated by the code (defect): loading the derived `ObsWindow`
field through `_get_score` overwrites the source's own `obs` array, because
`temp = input.obs[:, :, :]` is a numpy view and `_calculate_window` writes
through it.  Concretely, for the all-ones source `c2Input` the call
`_get_score(ObsWindow, 0)` leaves the source's observation at (0, 0, 0) equal
to the window value 0.0 instead of the original 1.0 — so a Source is NOT
left unchanged by field-cache loads. -/
theorem claim_C2_code_bug :
    ((getScore c2State .obsWindow 0).toOption.map
      (fun p => ((p.2.inputs.getD 0 default).obs.val 0 0 0))) = some (.num 0) ∧
    c2Input.obs.val 0 0 0 = .num 1 :=
  ⟨by with_unfolding_all decide, by decide⟩

/-!
## Persistent fields of the state across `_get_score`
-/

/-- The parts of the `Data` object that `_get_score` never writes: everything
except the cache contents and the inputs' own arrays (list lengths are
preserved). -/
def samePersist (a b : DState) : Prop :=
  a.inputs.length = b.inputs.length ∧ a.cache.length = b.cache.length ∧
  a.timesI = b.timesI ∧ a.offsetsI = b.offsetsI ∧ a.locationsI = b.locationsI ∧
  a.hasClim = b.hasClim ∧ a.climType = b.climType ∧
  a.removeMissingAcrossAll = b.removeMissingAcrossAll ∧
  a.obsField = b.obsField ∧ a.fcstField = b.fcstField ∧
  a.times = b.times ∧ a.offsets = b.offsets ∧ a.months = b.months ∧ a.years = b.years

theorem samePersist_refl (a : DState) : samePersist a a :=
  ⟨rfl, rfl, rfl, rfl, rfl, rfl, rfl, rfl, rfl, rfl, rfl, rfl, rfl, rfl⟩

theorem samePersist_trans {a b c : DState} (h1 : samePersist a b) (h2 : samePersist b c) :
    samePersist a c := by
  obtain ⟨x1, x2, x3, x4, x5, x6, x7, x8, x9, x10, x11, x12, x13, x14⟩ := h1
  obtain ⟨y1, y2, y3, y4, y5, y6, y7, y8, y9, y10, y11, y12, y13, y14⟩ := h2
  exact ⟨x1.trans y1, x2.trans y2, x3.trans y3, x4.trans y4, x5.trans y5, x6.trans y6,
    x7.trans y7, x8.trans y8, x9.trans y9, x10.trans y10, x11.trans y11, x12.trans y12,
    x13.trans y13, x14.trans y14⟩

theorem loadOne_persist {st : DState} {f : VField} {i : ℕ} {st' : DState}
    (h : loadOne st f i = .ok st') : samePersist st' st := by
  unfold loadOne at h
  split at h
  · injection h with h2
    rw [← h2]
    exact samePersist_refl st
  · split at h
    · split at h
      · exact Except.noConfusion h
      · injection h with h2
        rw [← h2]
        exact ⟨List.length_set _ _ _, List.length_set _ _ _, rfl, rfl, rfl, rfl, rfl, rfl,
          rfl, rfl, rfl, rfl, rfl, rfl⟩
    · exact Except.noConfusion h

theorem foldlM_loadOne_persist (L : List ℕ) (f : VField) :
    ∀ st st' : DState, L.foldlM (fun s i => loadOne s f i) st = .ok st' → samePersist st' st := by
  induction L with
  | nil =>
    intro st st' h
    injection h with h2
    rw [← h2]
    exact samePersist_refl st
  | cons j t ih =>
    intro st st' h
    rw [List.foldlM_cons] at h
    cases hj : loadOne st f j with
    | error e => rw [hj] at h; exact Except.noConfusion h
    | ok s1 =>
      rw [hj] at h
      have h2 : t.foldlM (fun s i => loadOne s f i) s1 = .ok st' := h
      exact samePersist_trans (ih s1 st' h2) (loadOne_persist hj)

theorem loadLoop_persist {st : DState} {f : VField} {st' : DState}
    (h : loadLoop st f = .ok st') : samePersist st' st :=
  foldlM_loadOne_persist _ f st st' h

theorem propagate_persist (st : DState) (f : VField) : samePersist (propagate st f) st := by
  unfold propagate
  split
  · refine ⟨rfl, ?_, rfl, rfl, rfl, rfl, rfl, rfl, rfl, rfl, rfl, rfl, rfl, rfl⟩
    simp
  · exact samePersist_refl st

/-- The state after the load loop of `_get_score` (the state on which the
missingness pass runs); identity when the load fails. -/
def loadRes (st : DState) (f : VField) : DState :=
  match loadLoop st f with
  | .ok s => s
  | .error _ => st

theorem getD_range_map {β : Type} (n i : ℕ) (h : ℕ → β) (d : β) :
    ((List.range n).map h).getD i d = if i < n then h i else d := by
  by_cases hi : i < n
  · rw [if_pos hi, List.getD_eq_getElem?_getD, List.getElem?_map, List.getElem?_range hi]
    rfl
  · rw [if_neg hi, List.getD_eq_getElem?_getD,
      List.getElem?_eq_none (by simp only [List.length_map, List.length_range]; omega)]
    rfl

theorem cacheLookup_propagate (st : DState) (f : VField) (i : ℕ)
    (hrm : st.removeMissingAcrossAll = true) (hi : i < st.inputs.length)
    (hic : i < st.cache.length) :
    cacheLookup (propagate st f) i f =
      (cacheLookup st i f).map (maskArr (missingMask st f)) := by
  unfold propagate
  rw [hrm, if_pos rfl]
  unfold cacheLookup
  dsimp only
  rw [getD_range_map, if_pos hic, if_pos hi, if_pos rfl]

theorem isnan_cacheArr_propagate (st : DState) (f : VField) (i : ℕ) (t o l : ℕ)
    (hrm : st.removeMissingAcrossAll = true) (hi : i < st.inputs.length)
    (hic : i < st.cache.length) :
    ((cacheArr (propagate st f) i f).val t o l).isnan = missingMask st f t o l := by
  unfold cacheArr
  rw [cacheLookup_propagate st f i hrm hi hic]
  cases hv : cacheLookup st i f with
  | none =>
    simp only [Option.map_none', Option.getD_none]
    have hmm : missingMask st f t o l = true := by
      unfold missingMask
      rw [List.any_eq_true]
      refine ⟨i, List.mem_range.mpr hi, ?_⟩
      unfold cacheArr
      rw [hv]
      rfl
    rw [hmm]
    rfl
  | some a =>
    simp only [Option.map_some', Option.getD_some]
    show (if missingMask st f t o l then Val.nan else a.val t o l).isnan = missingMask st f t o l
    cases hmiss : missingMask st f t o l with
    | true => rw [if_pos rfl]; rfl
    | false =>
      rw [if_neg (by simp)]
      by_contra hcon
      have h1 : ((a.val t o l)).isnan = true := by
        revert hcon
        cases (a.val t o l).isnan <;> simp
      have h2 : missingMask st f t o l = true := by
        unfold missingMask
        rw [List.any_eq_true]
        refine ⟨i, List.mem_range.mpr hi, ?_⟩
        unfold cacheArr
        rw [hv]
        exact h1
      rw [hmiss] at h2
      exact Bool.noConfusion h2

/-- Claim C3: with `remove_missing_across_all` on, immediately after a field
is loaded for all sources by `_get_score`, the NaN mask of every source's
cached trimmed array for that field is identical across sources, and a
position is NaN exactly when it was NaN in at least one source's trimmed
array before the propagation pass. -/
theorem claim_C3 (st : DState) (field : VField) (ii : ℕ)
    (hrm : st.removeMissingAcrossAll = true)
    (hmiss : cacheLookup st ii field = none)
    (hcl : st.cache.length = st.inputs.length)
    (hok : (loadLoop st (aliasField st field)).isOk = true) :
    (∀ a st', getScore st field ii = .ok (a, st') →
      st' = propagate (loadRes st (aliasField st field)) (aliasField st field)) ∧
    (∀ i j t o l, i < st.inputs.length → j < st.inputs.length →
      ((cacheArr (propagate (loadRes st (aliasField st field)) (aliasField st field)) i
          (aliasField st field)).val t o l).isnan =
        ((cacheArr (propagate (loadRes st (aliasField st field)) (aliasField st field)) j
          (aliasField st field)).val t o l).isnan) ∧
    (∀ i t o l, i < st.inputs.length →
      (((cacheArr (propagate (loadRes st (aliasField st field)) (aliasField st field)) i
          (aliasField st field)).val t o l).isnan = true ↔
        ∃ m, m < st.inputs.length ∧
          ((cacheArr (loadRes st (aliasField st field)) m
            (aliasField st field)).val t o l).isnan = true)) := by
  cases heq : loadLoop st (aliasField st field) with
  | error e => rw [heq] at hok; exact Bool.noConfusion hok
  | ok s =>
    have hres : loadRes st (aliasField st field) = s := by
      unfold loadRes
      rw [heq]
    have hper := loadLoop_persist heq
    have hsi : s.inputs.length = st.inputs.length := hper.1
    have hsc : s.cache.length = st.inputs.length := hper.2.1.trans hcl
    have hsr : s.removeMissingAcrossAll = true := hper.2.2.2.2.2.2.2.1.trans hrm
    refine ⟨?_, ?_, ?_⟩
    · intro a st' h
      unfold getScore at h
      unfold cacheLookup at hmiss
      rw [hmiss] at h
      rw [heq] at h
      dsimp only at h
      rw [hres]
      cases hfin : (propagate s (aliasField st field)).cache.getD ii emptyCache
          (aliasField st field) with
      | some b =>
        rw [hfin] at h
        injection h with h2
        injection h2 with h3 h4
        exact h4.symm
      | none =>
        rw [hfin] at h
        exact Except.noConfusion h
    · intro i j t o l hi hj
      rw [hres]
      rw [isnan_cacheArr_propagate s _ i t o l hsr (by omega) (by omega),
        isnan_cacheArr_propagate s _ j t o l hsr (by omega) (by omega)]
    · intro i t o l hi
      rw [hres]
      rw [isnan_cacheArr_propagate s _ i t o l hsr (by omega) (by omega)]
      unfold missingMask
      rw [List.any_eq_true]
      constructor
      · rintro ⟨m, hm, hmn⟩
        exact ⟨m, by rw [← hsi]; exact List.mem_range.mp hm, hmn⟩
      · rintro ⟨m, hm, hmn⟩
        exact ⟨m, List.mem_range.mpr (by omega), hmn⟩

/-- First source for the missingness-propagation witness: observation NaN. -/
def c3InputA : Input :=
  { times := [0], offsets := [0], locations := [⟨1, 0, 0, 0⟩], thresholds := [],
    quantiles := [], vars := [.obs, .fcst], obs := ⟨1, 1, 1, fun _ _ _ => .nan⟩,
    fcst := ⟨1, 1, 1, fun _ _ _ => .num 3⟩,
    ensemble := default, thresholdScores := default, quantileScores := default }

/-- Second source for the missingness-propagation witness: observation 2.0. -/
def c3InputB : Input :=
  { c3InputA with obs := ⟨1, 1, 1, fun _ _ _ => .num 2⟩ }

/-- Two-source aligned state for the missingness-propagation witness. -/
def c3State : DState :=
  { inputs := [c3InputA, c3InputB], cache := [emptyCache, emptyCache],
    timesI := [[0], [0]], offsetsI := [[0], [0]], locationsI := [[0], [0]],
    hasClim := false, climType := "subtract", removeMissingAcrossAll := true,
    obsField := .obs, fcstField := .fcst,
    times := [0], offsets := [0], locationsC := [⟨1, 0, 0, 0⟩],
    months := [0], years := [0], legend := none }

/-- Concrete instantiation of `claim_C3` on `c3State` with the Obs field:
the hypotheses are discharged by computation. -/
theorem claim_C3_witness :
    (c3State.removeMissingAcrossAll = true ∧
      cacheLookup c3State 0 VField.obs = none ∧
      c3State.cache.length = c3State.inputs.length ∧
      (loadLoop c3State (aliasField c3State .obs)).isOk = true) ∧
    ((∀ a st', getScore c3State .obs 0 = .ok (a, st') →
      st' = propagate (loadRes c3State (aliasField c3State .obs)) (aliasField c3State .obs)) ∧
    (∀ i j t o l, i < c3State.inputs.length → j < c3State.inputs.length →
      ((cacheArr (propagate (loadRes c3State (aliasField c3State .obs))
          (aliasField c3State .obs)) i (aliasField c3State .obs)).val t o l).isnan =
        ((cacheArr (propagate (loadRes c3State (aliasField c3State .obs))
          (aliasField c3State .obs)) j (aliasField c3State .obs)).val t o l).isnan) ∧
    (∀ i t o l, i < c3State.inputs.length →
      (((cacheArr (propagate (loadRes c3State (aliasField c3State .obs))
          (aliasField c3State .obs)) i (aliasField c3State .obs)).val t o l).isnan = true ↔
        ∃ m, m < c3State.inputs.length ∧
          ((cacheArr (loadRes c3State (aliasField c3State .obs)) m
            (aliasField c3State .obs)).val t o l).isnan = true))) := by
  exact ⟨⟨by decide, by rfl, by decide, by decide⟩,
    claim_C3 c3State .obs 0 (by decide) (by rfl) (by decide) (by decide)⟩

/-!
## Axis Slicer: `Data.get_scores`
-/

/-- A `verif.axis` identifier as dispatched on by `get_scores`. -/
inductive VAxis where
  | time
  | month
  | year
  | offset
  | location
  | locationId
  | elev
  | lat
  | lon
  | no
  | threshold
  | all
deriving DecidableEq, Repr

/-- `axis.is_location_like`. -/
def VAxis.isLocationLike : VAxis → Bool
  | .location | .locationId | .elev | .lat | .lon => true
  | _ => false

/-- The `np.where` time selection of the Month/Year axes: all time positions
whose time lies in `[buckets[ai], buckets[ai+1])`, or `>= buckets[ai]` for
the last bucket (`axis_index == buckets.shape[0] - 1`). -/
def bucketIndices (times buckets : List ℤ) (ai : ℕ) : List ℕ :=
  if ai = buckets.length - 1 then
    (List.range times.length).filter (fun t => decide (buckets.getD ai 0 ≤ times.getD t 0))
  else
    (List.range times.length).filter (fun t =>
      decide (buckets.getD ai 0 ≤ times.getD t 0) &&
        decide (times.getD t 0 < buckets.getD (ai + 1) 0))

/-- The per-axis slice-and-flatten of `get_scores` for aggregating axes, in
the source's dispatch order (time, month, year, offset, location-like,
no/threshold); flattening is C-order over the remaining dimensions.  The
final branch is the `all` axis, which never reaches this function. -/
def sliceArr (a : Arr3) (times months years : List ℤ) (ax : VAxis) (ai : ℕ) : Arr1 :=
  if ax = .time then
    ⟨a.dO * a.dL, fun k => a.val ai (k / a.dL) (k % a.dL)⟩
  else if ax = .month then
    ⟨(bucketIndices times months ai).length * (a.dO * a.dL),
      fun k => a.val ((bucketIndices times months ai).getD (k / (a.dO * a.dL)) 0)
        ((k % (a.dO * a.dL)) / a.dL) (k % a.dL)⟩
  else if ax = .year then
    ⟨(bucketIndices times years ai).length * (a.dO * a.dL),
      fun k => a.val ((bucketIndices times years ai).getD (k / (a.dO * a.dL)) 0)
        ((k % (a.dO * a.dL)) / a.dL) (k % a.dL)⟩
  else if ax = .offset then
    ⟨a.dT * a.dL, fun k => a.val (k / a.dL) ai (k % a.dL)⟩
  else if ax.isLocationLike then
    ⟨a.dT * a.dO, fun k => a.val (k / a.dO) (k % a.dO) ai⟩
  else if ax = .no ∨ ax = .threshold then
    ⟨a.dT * (a.dO * a.dL),
      fun k => a.val (k / (a.dO * a.dL)) ((k % (a.dO * a.dL)) / a.dL) (k % a.dL)⟩
  else
    ⟨0, fun _ => .nan⟩

/-- Elementwise `curr - clim` or `curr / clim` per the climatology mode
(`self._clim_type == "subtract"` or `"divide"`). -/
def climAdjust (ctype : String) (curr clim : Arr1) : Arr1 :=
  if ctype = "subtract" then ⟨curr.size, fun k => Val.sub (curr.val k) (clim.val k)⟩
  else ⟨curr.size, fun k => Val.div (curr.val k) (clim.val k)⟩

/-- The 3-d variant of the climatology adjustment (the `all` axis). -/
def climAdjust3 (ctype : String) (curr clim : Arr3) : Arr3 :=
  if ctype = "subtract" then
    ⟨curr.dT, curr.dO, curr.dL, fun t o l => Val.sub (curr.val t o l) (clim.val t o l)⟩
  else
    ⟨curr.dT, curr.dO, curr.dL, fun t o l => Val.div (curr.val t o l) (clim.val t o l)⟩

/-- The per-field loop of `get_scores` for an aggregating axis: load each
field through `_get_score` (threading the cache state), slice along the axis,
and subtract/divide climatology for the `Obs`/`Fcst` fields when climatology
is active (`doClim and (field == Fcst() or field == Obs())`).  `times`,
`months`, `years` and the climatology mode are attributes the loop never
writes, captured at entry. -/
def loadSliceFields (st : DState) (fields : List VField) (ii : ℕ) (ax : VAxis) (ai : ℕ)
    (doClim : Bool) (clim : Arr1) (ctype : String) (times months years : List ℤ) :
    Except String (List Arr1 × DState) :=
  match fields with
  | [] => .ok ([], st)
  | f :: rest =>
    match getScore st f ii with
    | .error e => .error e
    | .ok (temp, st') =>
      match loadSliceFields st' rest ii ax ai doClim clim ctype times months years with
      | .error e => .error e
      | .ok (currs, st2) =>
        .ok ((if doClim && (f = .fcst || f = .obs) then
          climAdjust ctype (sliceArr temp times months years ax ai) clim
          else sliceArr temp times months years ax ai) :: currs, st2)

/-- The per-field loop of `get_scores` for the `all` axis (`curr = temp`,
no flattening). -/
def loadFields3 (st : DState) (fields : List VField) (ii : ℕ) (doClim : Bool) (clim : Arr3)
    (ctype : String) : Except String (List Arr3 × DState) :=
  match fields with
  | [] => .ok ([], st)
  | f :: rest =>
    match getScore st f ii with
    | .error e => .error e
    | .ok (temp, st') =>
      match loadFields3 st' rest ii doClim clim ctype with
      | .error e => .error e
      | .ok (currs, st2) =>
        .ok ((if doClim && (f = .fcst || f = .obs) then climAdjust3 ctype temp clim else temp)
          :: currs, st2)

/-- The ascending index list kept by the joint-validity mask
(`I = np.where(valid)`): positions of the first slice's range at which every
requested field is finite and non-NaN. -/
def jointValidIdx (currs : List Arr1) : List ℕ :=
  (List.range ((currs.headD default).size)).filter
    (fun k => currs.all (fun c => (c.val k).valid))

/-- `scores[i] = scores[i][I]` — keep only the selected positions, in order. -/
def restrictTo (idx : List ℕ) (a : Arr1) : Arr1 :=
  ⟨idx.length, fun j => a.val (idx.getD j 0)⟩

/-- `np.nan * np.zeros(1, float)` — the one-element NaN placeholder. -/
def nanPlaceholder : Arr1 := ⟨1, fun _ => .nan⟩

/-- The value returned by `get_scores`: flattened arrays for aggregating axes
(or the placeholder list), or full 3-d arrays for the `all` axis. -/
inductive Scores where
  | flat : List Arr1 → Scores
  | full : List Arr3 → Scores

/-- The climatology step plus field loop of `get_scores` for an aggregating
axis, before joint-validity restriction: compute `doClim`, load and slice the
climatology forecast (`self._get_score(Fcst(), len(self._inputs) - 1)`) when
needed, then run the per-field loop. -/
def getScoresFlatCore (st : DState) (fields : List VField) (ii : ℕ) (ax : VAxis) (ai : ℕ) :
    Except String (List Arr1 × DState) :=
  let doClim := st.hasClim && (decide (VField.obs ∈ fields) || decide (VField.fcst ∈ fields))
  match (if doClim then
      (match getScore st .fcst (st.inputs.length - 1) with
       | .error e => .error e
       | .ok (temp, s) => .ok (sliceArr temp st.times st.months st.years ax ai, s))
    else .ok (default, st) : Except String (Arr1 × DState)) with
  | .error e => .error e
  | .ok (climS, st1) =>
    loadSliceFields st1 fields ii ax ai doClim climS st.climType st.times st.months st.years

/-- For the `all` axis, `curr = temp` aliases the cached array object when no
climatology arithmetic copies it, and `scores[i][valid == 0] = np.nan`
writes through that alias: the cached entry of the requested input for each
such field is masked in place.  This function applies that cache side
effect. -/
def maskCacheAll (st : DState) (fields : List VField) (ii : ℕ) (doClim : Bool)
    (valid3 : ℕ → ℕ → ℕ → Bool) : DState :=
  fields.foldl (fun s f =>
    if doClim && (f = .fcst || f = .obs) then s
    else
      match cacheLookup s ii (aliasField s f) with
      | none => s
      | some a =>
        let masked : Arr3 := ⟨a.dT, a.dO, a.dL,
          fun t o l => if valid3 t o l then a.val t o l else .nan⟩
        { s with
          cache := s.cache.set ii
            (cacheInsert (s.cache.getD ii emptyCache) (aliasField s f) masked) }) st

/-- `Data.get_scores`.  The bounds check is
`input_index < 0 or input_index >= self.num_inputs` (indices are naturals
here, so only the upper bound can fire).  An empty `fields` list reaches
`scores[0]` and raises an IndexError in the source.  The final
`scores[0].shape[0] == 0` check replaces the result with one-element NaN
placeholders; it applies to both branches (for the `all` axis,
`shape[0]` is the time dimension). -/
def get_scores (st : DState) (fields : List VField) (ii : ℕ) (ax : VAxis) (ai : ℕ) :
    Except String (Scores × DState) :=
  if st.numInputs ≤ ii then .error "input_index must be between 0 and num_inputs"
  else if ax = .all then
    let doClim := st.hasClim && (decide (VField.obs ∈ fields) || decide (VField.fcst ∈ fields))
    match (if doClim then
        (match getScore st .fcst (st.inputs.length - 1) with
         | .error e => .error e
         | .ok (temp, s) => .ok (some temp, s))
      else .ok (none, st) : Except String (Option Arr3 × DState)) with
    | .error e => .error e
    | .ok (climOpt, st1) =>
      match loadFields3 st1 fields ii doClim (climOpt.getD default) st.climType with
      | .error e => .error e
      | .ok (currs, st2) =>
        let valid3 : ℕ → ℕ → ℕ → Bool := fun t o l => currs.all (fun c => (c.val t o l).valid)
        match currs with
        | [] => .error "IndexError: list index out of range"
        | c0 :: _ =>
          if c0.dT = 0 then
            .ok (.flat (List.replicate fields.length nanPlaceholder),
              maskCacheAll st2 fields ii doClim valid3)
          else
            .ok (.full (currs.map (fun c =>
              (⟨c.dT, c.dO, c.dL, fun t o l => if valid3 t o l then c.val t o l else .nan⟩ :
                Arr3))), maskCacheAll st2 fields ii doClim valid3)
  else
    match getScoresFlatCore st fields ii ax ai with
    | .error e => .error e
    | .ok (currs, st2) =>
      match currs.map (restrictTo (jointValidIdx currs)) with
      | [] => .error "IndexError: list index out of range"
      | s0 :: rest =>
        if s0.size = 0 then .ok (.flat (List.replicate fields.length nanPlaceholder), st2)
        else .ok (.flat (s0 :: rest), st2)

/-- The sliced (and climatology-adjusted) per-field arrays of an aggregated
`get_scores` call, before joint-validity restriction. -/
def flatCurrs (st : DState) (fields : List VField) (ii : ℕ) (ax : VAxis) (ai : ℕ) : List Arr1 :=
  match getScoresFlatCore st fields ii ax ai with
  | .ok (c, _) => c
  | .error _ => []

/-- The flattened arrays of a `get_scores` result (empty for errors and for
the `all` axis). -/
def scoresOfFlat (r : Except String (Scores × DState)) : List Arr1 :=
  match r with
  | .ok (.flat l, _) => l
  | _ => []

theorem loadSliceFields_length (fields : List VField) :
    ∀ st ii ax ai doClim clim ctype times months years currs st2,
      loadSliceFields st fields ii ax ai doClim clim ctype times months years = .ok (currs, st2) →
      currs.length = fields.length := by
  induction fields with
  | nil =>
    intro st ii ax ai doClim clim ctype times months years currs st2 h
    injection h with h2
    injection h2 with h3 h4
    rw [← h3]
    rfl
  | cons f rest ih =>
    intro st ii ax ai doClim clim ctype times months years currs st2 h
    unfold loadSliceFields at h
    cases h1 : getScore st f ii with
    | error e => rw [h1] at h; exact Except.noConfusion h
    | ok pr =>
      obtain ⟨temp, st'⟩ := pr
      rw [h1] at h
      dsimp only at h
      cases h2 : loadSliceFields st' rest ii ax ai doClim clim ctype times months years with
      | error e => rw [h2] at h; exact Except.noConfusion h
      | ok pr2 =>
        obtain ⟨currs2, st3⟩ := pr2
        rw [h2] at h
        dsimp only at h
        injection h with h3
        injection h3 with h4 h5
        rw [← h4]
        simp only [List.length_cons]
        rw [ih st' ii ax ai doClim clim ctype times months years currs2 st3 h2]

theorem flatCore_length {st : DState} {fields : List VField} {ii : ℕ} {ax : VAxis} {ai : ℕ}
    {currs : List Arr1} {st2 : DState}
    (h : getScoresFlatCore st fields ii ax ai = .ok (currs, st2)) :
    currs.length = fields.length := by
  unfold getScoresFlatCore at h
  dsimp only at h
  cases hc : (if st.hasClim && (decide (VField.obs ∈ fields) || decide (VField.fcst ∈ fields)) then
      (match getScore st .fcst (st.inputs.length - 1) with
       | .error e => .error e
       | .ok (temp, s) => .ok (sliceArr temp st.times st.months st.years ax ai, s))
    else .ok (default, st) : Except String (Arr1 × DState)) with
  | error e => rw [hc] at h; exact Except.noConfusion h
  | ok pr =>
    obtain ⟨climS, st1⟩ := pr
    rw [hc] at h
    exact loadSliceFields_length fields st1 ii ax ai _ climS st.climType st.times st.months
      st.years currs st2 h

theorem get_scores_flat_eq (st : DState) (fields : List VField) (ii : ℕ) (ax : VAxis) (ai : ℕ)
    (hb : ¬ st.numInputs ≤ ii) (hax : ax ≠ .all) {currs : List Arr1} {st2 : DState}
    (hcore : getScoresFlatCore st fields ii ax ai = .ok (currs, st2)) (hcne : currs ≠ []) :
    get_scores st fields ii ax ai =
      (if (jointValidIdx currs).length = 0 then
        .ok (.flat (List.replicate fields.length nanPlaceholder), st2)
      else .ok (.flat (currs.map (restrictTo (jointValidIdx currs))), st2)) := by
  unfold get_scores
  rw [if_neg hb, if_neg hax, hcore]
  cases currs with
  | nil => exact absurd rfl hcne
  | cons c0 crest =>
    simp only [List.map_cons]
    by_cases hz : (jointValidIdx (c0 :: crest)).length = 0
    · rw [if_pos (show (restrictTo (jointValidIdx (c0 :: crest)) c0).size = 0 from hz),
        if_pos hz]
    · rw [if_neg (show ¬ (restrictTo (jointValidIdx (c0 :: crest)) c0).size = 0 from hz),
        if_neg hz]

/-- Claim C8: an aggregated `get_scores` call whose joint-validity mask keeps
no position returns, for each requested field, a one-element NaN placeholder
array — never a zero-length array. -/
theorem claim_C8 (st : DState) (fields : List VField) (ii : ℕ) (ax : VAxis) (ai : ℕ)
    (hax : ax ≠ .all) (hne : fields ≠ [])
    (hok : (get_scores st fields ii ax ai).isOk = true)
    (hcnt : (jointValidIdx (flatCurrs st fields ii ax ai)).length = 0) :
    scoresOfFlat (get_scores st fields ii ax ai) = List.replicate fields.length nanPlaceholder ∧
    ∀ r ∈ scoresOfFlat (get_scores st fields ii ax ai), r.size = 1 ∧ r.val 0 = .nan := by
  by_cases hb : st.numInputs ≤ ii
  · unfold get_scores at hok
    rw [if_pos hb] at hok
    exact Bool.noConfusion hok
  · cases hcore : getScoresFlatCore st fields ii ax ai with
    | error e =>
      unfold get_scores at hok
      rw [if_neg hb, if_neg hax, hcore] at hok
      exact Bool.noConfusion hok
    | ok pr =>
      obtain ⟨currs, st2⟩ := pr
      have hfc : flatCurrs st fields ii ax ai = currs := by
        unfold flatCurrs
        rw [hcore]
      rw [hfc] at hcnt
      have hlen := flatCore_length hcore
      have hcne : currs ≠ [] := by
        intro hnil
        rw [hnil] at hlen
        exact hne (List.eq_nil_of_length_eq_zero hlen.symm)
      have hgs := get_scores_flat_eq st fields ii ax ai hb hax hcore hcne
      rw [if_pos hcnt] at hgs
      rw [hgs]
      refine ⟨rfl, ?_⟩
      intro r hr
      have hrr := List.eq_of_mem_replicate
        (show r ∈ List.replicate fields.length nanPlaceholder from hr)
      rw [hrr]
      exact ⟨rfl, rfl⟩

/-- Concrete instantiation of `claim_C8`: both sources' observations end up
all-NaN after propagation, the joint-valid count is 0, and the result is one
single-element NaN array. -/
theorem claim_C8_witness :
    ((VAxis.no : VAxis) ≠ .all ∧ ([VField.obs] : List VField) ≠ [] ∧
      (get_scores c3State [.obs] 0 .no 0).isOk = true ∧
      (jointValidIdx (flatCurrs c3State [.obs] 0 .no 0)).length = 0) ∧
    (scoresOfFlat (get_scores c3State [.obs] 0 .no 0) =
        List.replicate ([VField.obs] : List VField).length nanPlaceholder ∧
      ∀ r ∈ scoresOfFlat (get_scores c3State [.obs] 0 .no 0), r.size = 1 ∧ r.val 0 = .nan) :=
  ⟨⟨by decide, by decide, by decide, by decide⟩,
    claim_C8 c3State [.obs] 0 .no 0 (by decide) (by decide) (by decide) (by decide)⟩

/-- Claim C6 as stated is false on the code: a call whose joint-validity mask
keeps no position returns one-element placeholder arrays, so the returned
length (1) differs from the jointly-valid count (0).  Concretely, on
`c3State` (all observations NaN after propagation) the returned array for
the Obs field has length 1 while the jointly-valid count is 0. -/
theorem claim_C6_counterexample :
    (get_scores c3State [.obs] 0 .no 0).isOk = true ∧
    (jointValidIdx (flatCurrs c3State [.obs] 0 .no 0)).length = 0 ∧
    ¬ (∀ r ∈ scoresOfFlat (get_scores c3State [.obs] 0 .no 0),
        r.size = (jointValidIdx (flatCurrs c3State [.obs] 0 .no 0)).length) :=
  ⟨by decide, by decide, by decide⟩

/-- Claim C6 (amended): for every aggregated `get_scores` call with at least
one jointly-valid position, the returned flattened arrays all have equal
length, that length is the number of positions valid in all requested fields
simultaneously, and each returned array is the corresponding sliced array
restricted to exactly those positions (when no position is jointly valid the
result is the one-element NaN placeholder per field instead). -/
theorem claim_C6_amended (st : DState) (fields : List VField) (ii : ℕ) (ax : VAxis) (ai : ℕ)
    (hax : ax ≠ .all) (hne : fields ≠ [])
    (hok : (get_scores st fields ii ax ai).isOk = true)
    (hcnt : 0 < (jointValidIdx (flatCurrs st fields ii ax ai)).length) :
    scoresOfFlat (get_scores st fields ii ax ai) =
      (flatCurrs st fields ii ax ai).map
        (restrictTo (jointValidIdx (flatCurrs st fields ii ax ai))) ∧
    (scoresOfFlat (get_scores st fields ii ax ai)).length = fields.length ∧
    ∀ r ∈ scoresOfFlat (get_scores st fields ii ax ai),
      r.size = (jointValidIdx (flatCurrs st fields ii ax ai)).length := by
  by_cases hb : st.numInputs ≤ ii
  · unfold get_scores at hok
    rw [if_pos hb] at hok
    exact Bool.noConfusion hok
  · cases hcore : getScoresFlatCore st fields ii ax ai with
    | error e =>
      unfold get_scores at hok
      rw [if_neg hb, if_neg hax, hcore] at hok
      exact Bool.noConfusion hok
    | ok pr =>
      obtain ⟨currs, st2⟩ := pr
      have hfc : flatCurrs st fields ii ax ai = currs := by
        unfold flatCurrs
        rw [hcore]
      rw [hfc] at hcnt ⊢
      have hlen := flatCore_length hcore
      have hcne : currs ≠ [] := by
        intro hnil
        rw [hnil] at hlen
        exact hne (List.eq_nil_of_length_eq_zero hlen.symm)
      have hgs := get_scores_flat_eq st fields ii ax ai hb hax hcore hcne
      rw [if_neg (by omega)] at hgs
      rw [hgs]
      refine ⟨rfl, ?_, ?_⟩
      · show (currs.map (restrictTo (jointValidIdx currs))).length = fields.length
        rw [List.length_map]
        exact hlen
      · intro r hr
        obtain ⟨c, hc, hrc⟩ := List.mem_map.mp hr
        rw [← hrc]
        rfl

/-- Single source for the `claim_C6_amended` witness: at flattened position 0
both fields are finite, at position 1 the observation is NaN. -/
def c6Input : Input :=
  { times := [0], offsets := [0, 1], locations := [⟨1, 0, 0, 0⟩], thresholds := [],
    quantiles := [], vars := [.obs, .fcst],
    obs := ⟨1, 2, 1, fun _ o _ => if o = 0 then .num 1 else .nan⟩,
    fcst := ⟨1, 2, 1, fun _ o _ => if o = 0 then .num 2 else .num 3⟩,
    ensemble := default, thresholdScores := default, quantileScores := default }

/-- State over `c6Input` alone for the `claim_C6_amended` witness. -/
def c6State : DState :=
  { inputs := [c6Input], cache := [emptyCache],
    timesI := [[0]], offsetsI := [[0, 1]], locationsI := [[0]],
    hasClim := false, climType := "subtract", removeMissingAcrossAll := true,
    obsField := .obs, fcstField := .fcst,
    times := [0], offsets := [0, 1], locationsC := [⟨1, 0, 0, 0⟩],
    months := [0], years := [0], legend := none }

/-- Concrete instantiation of `claim_C6_amended`: two fields, two flattened
positions, exactly one jointly valid. -/
theorem claim_C6_witness :
    ((VAxis.no : VAxis) ≠ .all ∧ ([VField.obs, VField.fcst] : List VField) ≠ [] ∧
      (get_scores c6State [.obs, .fcst] 0 .no 0).isOk = true ∧
      0 < (jointValidIdx (flatCurrs c6State [.obs, .fcst] 0 .no 0)).length) ∧
    (scoresOfFlat (get_scores c6State [.obs, .fcst] 0 .no 0) =
      (flatCurrs c6State [.obs, .fcst] 0 .no 0).map
        (restrictTo (jointValidIdx (flatCurrs c6State [.obs, .fcst] 0 .no 0))) ∧
    (scoresOfFlat (get_scores c6State [.obs, .fcst] 0 .no 0)).length =
      ([VField.obs, VField.fcst] : List VField).length ∧
    ∀ r ∈ scoresOfFlat (get_scores c6State [.obs, .fcst] 0 .no 0),
      r.size = (jointValidIdx (flatCurrs c6State [.obs, .fcst] 0 .no 0)).length) :=
  ⟨⟨by decide, by decide, by decide, by decide⟩,
    claim_C6_amended c6State [.obs, .fcst] 0 .no 0 (by decide) (by decide) (by decide)
      (by decide)⟩

/-- The state after the climatology load step of `get_scores`
(`temp = self._get_score(verif.field.Fcst(), len(self._inputs) - 1)`). -/
def climStateOf (st : DState) : DState :=
  match getScore st .fcst (st.inputs.length - 1) with
  | .ok (_, s) => s
  | .error _ => st

/-- The climatology source's trimmed Fcst array as returned by that call. -/
def climArrOf (st : DState) : Arr3 :=
  match getScore st .fcst (st.inputs.length - 1) with
  | .ok (a, _) => a
  | .error _ => default

/-- The trimmed array of source `ii` for the requested field as `_get_score`
returns it inside a climatology-adjusted `get_scores` call (the field load
runs on the state left by the climatology step). -/
def fieldArrOf (st : DState) (f : VField) (ii : ℕ) : Arr3 :=
  match getScore (climStateOf st) f ii with
  | .ok (a, _) => a
  | .error _ => default

/-- The trimmed array of source `ii` for a field the climatology adjustment
does not apply to (no climatology step runs, so the load starts from the
entry state). -/
def fieldArrNoClim (st : DState) (f : VField) (ii : ℕ) : Arr3 :=
  match getScore st f ii with
  | .ok (a, _) => a
  | .error _ => default

theorem valid_sub {x y : Val} (h : (Val.sub x y).valid = true) :
    ∃ a b : ℚ, x = .num a ∧ y = .num b ∧ Val.sub x y = .num (a - b) := by
  cases x with
  | num a =>
    cases y with
    | num b => exact ⟨a, b, rfl, rfl, rfl⟩
    | nan => exact Bool.noConfusion h
    | inf => exact Bool.noConfusion h
  | nan => cases y <;> exact Bool.noConfusion h
  | inf => cases y <;> exact Bool.noConfusion h

theorem jointValidIdx_mem {currs : List Arr1} {k : ℕ} (h : k ∈ jointValidIdx currs) :
    ∀ c ∈ currs, (c.val k).valid = true := by
  unfold jointValidIdx at h
  rw [List.mem_filter] at h
  have h2 := h.2
  rw [List.all_eq_true] at h2
  exact fun c hc => h2 c hc

theorem getD_mem_of_lt {l : List ℕ} {p : ℕ} (h : p < l.length) : l.getD p 0 ∈ l := by
  rw [List.getD_eq_getElem?_getD, List.getElem?_eq_getElem h, Option.getD_some]
  exact List.getElem_mem h

theorem flatCore_single_clim (st : DState) (f : VField) (ii : ℕ) (ax : VAxis) (ai : ℕ)
    (hdc : (st.hasClim && (decide (VField.obs ∈ [f]) || decide (VField.fcst ∈ [f]))) = true)
    {tc : Arr3} {s1 : DState} (hc : getScore st .fcst (st.inputs.length - 1) = .ok (tc, s1))
    {tf : Arr3} {s2 : DState} (hfld : getScore s1 f ii = .ok (tf, s2))
    (hguard : (decide (f = VField.fcst) || decide (f = VField.obs)) = true) :
    getScoresFlatCore st [f] ii ax ai =
      .ok ([climAdjust st.climType (sliceArr tf st.times st.months st.years ax ai)
        (sliceArr tc st.times st.months st.years ax ai)], s2) := by
  unfold getScoresFlatCore
  dsimp only
  rw [hdc, if_pos rfl, hc]
  dsimp only
  unfold loadSliceFields
  rw [hfld]
  dsimp only
  unfold loadSliceFields
  dsimp only
  rw [hguard]
  rfl

theorem flatCore_single_noclim (st : DState) (f : VField) (ii : ℕ) (ax : VAxis) (ai : ℕ)
    (hdc : (st.hasClim && (decide (VField.obs ∈ [f]) || decide (VField.fcst ∈ [f]))) = false)
    {tf : Arr3} {s2 : DState} (hfld : getScore st f ii = .ok (tf, s2)) :
    getScoresFlatCore st [f] ii ax ai =
      .ok ([sliceArr tf st.times st.months st.years ax ai], s2) := by
  unfold getScoresFlatCore
  dsimp only
  rw [hdc, if_neg (by simp)]
  dsimp only
  unfold loadSliceFields
  rw [hfld]
  dsimp only
  unfold loadSliceFields
  dsimp only
  rw [Bool.false_and]
  rfl

theorem get_scores_single_clim (st : DState) (f : VField) (ii : ℕ) (ax : VAxis) (ai : ℕ)
    (hclim : st.hasClim = true) (hsub : st.climType = "subtract")
    (hf : f = .fcst ∨ f = .obs) (hax : ax ≠ .all)
    (hok : (get_scores st [f] ii ax ai).isOk = true) :
    ∀ p, p < (jointValidIdx (flatCurrs st [f] ii ax ai)).length →
      ∃ a b : ℚ,
        (sliceArr (fieldArrOf st f ii) st.times st.months st.years ax ai).val
          ((jointValidIdx (flatCurrs st [f] ii ax ai)).getD p 0) = .num a ∧
        (sliceArr (climArrOf st) st.times st.months st.years ax ai).val
          ((jointValidIdx (flatCurrs st [f] ii ax ai)).getD p 0) = .num b ∧
        ((scoresOfFlat (get_scores st [f] ii ax ai)).headD default).val p = .num (a - b) := by
  intro p hp
  by_cases hb : st.numInputs ≤ ii
  · unfold get_scores at hok
    rw [if_pos hb] at hok
    exact Bool.noConfusion hok
  have hdc : (st.hasClim && (decide (VField.obs ∈ [f]) || decide (VField.fcst ∈ [f]))) = true := by
    rcases hf with rfl | rfl <;> rw [hclim] <;> rfl
  cases hc : getScore st .fcst (st.inputs.length - 1) with
  | error e =>
    have hcore : getScoresFlatCore st [f] ii ax ai = .error e := by
      unfold getScoresFlatCore
      dsimp only
      rw [hdc, if_pos rfl, hc]
    unfold get_scores at hok
    rw [if_neg hb, if_neg hax, hcore] at hok
    exact Bool.noConfusion hok
  | ok pr =>
    obtain ⟨tc, s1⟩ := pr
    cases hfld : getScore s1 f ii with
    | error e =>
      have hcore : getScoresFlatCore st [f] ii ax ai = .error e := by
        unfold getScoresFlatCore
        dsimp only
        rw [hdc, if_pos rfl, hc]
        dsimp only
        unfold loadSliceFields
        rw [hfld]
      unfold get_scores at hok
      rw [if_neg hb, if_neg hax, hcore] at hok
      exact Bool.noConfusion hok
    | ok pr2 =>
      obtain ⟨tf, s2⟩ := pr2
      have hguard : (decide (f = VField.fcst) || decide (f = VField.obs)) = true := by
        rcases hf with rfl | rfl <;> rfl
      have hcore := flatCore_single_clim st f ii ax ai hdc hc hfld hguard
      have hfc : flatCurrs st [f] ii ax ai =
          [climAdjust st.climType (sliceArr tf st.times st.months st.years ax ai)
            (sliceArr tc st.times st.months st.years ax ai)] := by
        unfold flatCurrs
        rw [hcore]
      have hfa : fieldArrOf st f ii = tf := by
        unfold fieldArrOf climStateOf
        rw [hc]
        dsimp only
        rw [hfld]
      have hca : climArrOf st = tc := by
        unfold climArrOf
        rw [hc]
      rw [hfc] at hp ⊢
      rw [hfa, hca]
      have hgs := get_scores_flat_eq st [f] ii ax ai hb hax hcore (by simp)
      rw [if_neg (by omega)] at hgs
      rw [hgs]
      set curr := climAdjust st.climType (sliceArr tf st.times st.months st.years ax ai)
        (sliceArr tc st.times st.months st.years ax ai) with hcurr
      set k := (jointValidIdx [curr]).getD p 0 with hk
      have hkmem : k ∈ jointValidIdx [curr] := getD_mem_of_lt hp
      have hval : (curr.val k).valid = true :=
        jointValidIdx_mem hkmem curr (List.mem_cons_self curr [])
      have hck : curr.val k = Val.sub ((sliceArr tf st.times st.months st.years ax ai).val k)
          ((sliceArr tc st.times st.months st.years ax ai).val k) := by
        rw [hcurr]
        unfold climAdjust
        rw [if_pos hsub]
      rw [hck] at hval
      obtain ⟨a, b, ha, hb2, hab⟩ := valid_sub hval
      refine ⟨a, b, ha, hb2, ?_⟩
      show (restrictTo (jointValidIdx [curr]) curr).val p = Val.num (a - b)
      show curr.val k = Val.num (a - b)
      rw [hck]
      exact hab

theorem get_scores_single_noclim (st : DState) (f : VField) (ii : ℕ) (ax : VAxis) (ai : ℕ)
    (hfo : f ≠ .obs) (hff : f ≠ .fcst) (hax : ax ≠ .all)
    (hok : (get_scores st [f] ii ax ai).isOk = true) :
    ∀ p, p < (jointValidIdx (flatCurrs st [f] ii ax ai)).length →
      ((scoresOfFlat (get_scores st [f] ii ax ai)).headD default).val p =
        (sliceArr (fieldArrNoClim st f ii) st.times st.months st.years ax ai).val
          ((jointValidIdx (flatCurrs st [f] ii ax ai)).getD p 0) := by
  intro p hp
  by_cases hb : st.numInputs ≤ ii
  · unfold get_scores at hok
    rw [if_pos hb] at hok
    exact Bool.noConfusion hok
  have h1 : decide (VField.obs ∈ [f]) = false :=
    decide_eq_false (fun h => hfo (List.mem_singleton.mp h).symm)
  have h2 : decide (VField.fcst ∈ [f]) = false :=
    decide_eq_false (fun h => hff (List.mem_singleton.mp h).symm)
  have hdc : (st.hasClim && (decide (VField.obs ∈ [f]) || decide (VField.fcst ∈ [f]))) = false := by
    rw [h1, h2]
    simp
  cases hfld : getScore st f ii with
  | error e =>
    have hcore : getScoresFlatCore st [f] ii ax ai = .error e := by
      unfold getScoresFlatCore
      dsimp only
      rw [hdc, if_neg (by simp)]
      dsimp only
      unfold loadSliceFields
      rw [hfld]
    unfold get_scores at hok
    rw [if_neg hb, if_neg hax, hcore] at hok
    exact Bool.noConfusion hok
  | ok pr =>
    obtain ⟨tf, s2⟩ := pr
    have hcore := flatCore_single_noclim st f ii ax ai hdc hfld
    have hfc : flatCurrs st [f] ii ax ai =
        [sliceArr tf st.times st.months st.years ax ai] := by
      unfold flatCurrs
      rw [hcore]
    have hfa : fieldArrNoClim st f ii = tf := by
      unfold fieldArrNoClim
      rw [hfld]
    rw [hfc] at hp ⊢
    rw [hfa]
    have hgs := get_scores_flat_eq st [f] ii ax ai hb hax hcore (by simp)
    rw [if_neg (by omega)] at hgs
    rw [hgs]
    rfl

/-- Claim C7: with a climatology source configured and subtract mode, an
aggregated `get_scores` call for the Fcst field returns, at each jointly
valid position, the source's trimmed forecast slice minus the climatology
source's trimmed Fcst slice at the same axis/index; the same adjustment
applies to the Obs field; and it applies to no other field variant — a
non-Obs/Fcst field is returned as its unadjusted slice at the jointly-valid
positions. -/
theorem claim_C7 (st : DState) (ii : ℕ) (ax : VAxis) (ai : ℕ)
    (hclim : st.hasClim = true) (hsub : st.climType = "subtract") (hax : ax ≠ .all) :
    ((get_scores st [.fcst] ii ax ai).isOk = true →
      ∀ p, p < (jointValidIdx (flatCurrs st [.fcst] ii ax ai)).length →
        ∃ a b : ℚ,
          (sliceArr (fieldArrOf st .fcst ii) st.times st.months st.years ax ai).val
            ((jointValidIdx (flatCurrs st [.fcst] ii ax ai)).getD p 0) = .num a ∧
          (sliceArr (climArrOf st) st.times st.months st.years ax ai).val
            ((jointValidIdx (flatCurrs st [.fcst] ii ax ai)).getD p 0) = .num b ∧
          ((scoresOfFlat (get_scores st [.fcst] ii ax ai)).headD default).val p =
            .num (a - b)) ∧
    ((get_scores st [.obs] ii ax ai).isOk = true →
      ∀ p, p < (jointValidIdx (flatCurrs st [.obs] ii ax ai)).length →
        ∃ a b : ℚ,
          (sliceArr (fieldArrOf st .obs ii) st.times st.months st.years ax ai).val
            ((jointValidIdx (flatCurrs st [.obs] ii ax ai)).getD p 0) = .num a ∧
          (sliceArr (climArrOf st) st.times st.months st.years ax ai).val
            ((jointValidIdx (flatCurrs st [.obs] ii ax ai)).getD p 0) = .num b ∧
          ((scoresOfFlat (get_scores st [.obs] ii ax ai)).headD default).val p =
            .num (a - b)) ∧
    (∀ f : VField, f ≠ .obs → f ≠ .fcst →
      (get_scores st [f] ii ax ai).isOk = true →
      ∀ p, p < (jointValidIdx (flatCurrs st [f] ii ax ai)).length →
        ((scoresOfFlat (get_scores st [f] ii ax ai)).headD default).val p =
          (sliceArr (fieldArrNoClim st f ii) st.times st.months st.years ax ai).val
            ((jointValidIdx (flatCurrs st [f] ii ax ai)).getD p 0)) :=
  ⟨fun hok => get_scores_single_clim st .fcst ii ax ai hclim hsub (Or.inl rfl) hax hok,
   fun hok => get_scores_single_clim st .obs ii ax ai hclim hsub (Or.inr rfl) hax hok,
   fun f h1 h2 hok => get_scores_single_noclim st f ii ax ai h1 h2 hax hok⟩

/-- Main source for the climatology witness: obs 7, fcst 5, one ensemble
member 9. -/
def c7Main : Input :=
  { times := [0], offsets := [0], locations := [⟨1, 0, 0, 0⟩], thresholds := [],
    quantiles := [], vars := [.obs, .fcst, .ensemble 0],
    obs := ⟨1, 1, 1, fun _ _ _ => .num 7⟩,
    fcst := ⟨1, 1, 1, fun _ _ _ => .num 5⟩,
    ensemble := ⟨1, 1, 1, 1, fun _ _ _ _ => .num 9⟩,
    thresholdScores := default, quantileScores := default }

/-- Climatology source for the witness: fcst 2. -/
def c7Clim : Input :=
  { times := [0], offsets := [0], locations := [⟨1, 0, 0, 0⟩], thresholds := [],
    quantiles := [], vars := [.obs, .fcst, .ensemble 0],
    obs := ⟨1, 1, 1, fun _ _ _ => .num 1⟩,
    fcst := ⟨1, 1, 1, fun _ _ _ => .num 2⟩,
    ensemble := ⟨1, 1, 1, 1, fun _ _ _ _ => .num 4⟩,
    thresholdScores := default, quantileScores := default }

/-- State with one visible source plus the appended climatology source. -/
def c7State : DState :=
  { inputs := [c7Main, c7Clim], cache := [emptyCache, emptyCache],
    timesI := [[0], [0]], offsetsI := [[0], [0]], locationsI := [[0], [0]],
    hasClim := true, climType := "subtract", removeMissingAcrossAll := true,
    obsField := .obs, fcstField := .fcst,
    times := [0], offsets := [0], locationsC := [⟨1, 0, 0, 0⟩],
    months := [0], years := [0], legend := none }

/-- Concrete instantiation of `claim_C7` on `c7State` (all three single-field
calls succeed, so no part of the conclusion is vacuous). -/
theorem claim_C7_witness :
    (c7State.hasClim = true ∧ c7State.climType = "subtract" ∧ (VAxis.no : VAxis) ≠ .all ∧
      (get_scores c7State [.fcst] 0 .no 0).isOk = true ∧
      (get_scores c7State [.obs] 0 .no 0).isOk = true ∧
      (get_scores c7State [.ensemble 0] 0 .no 0).isOk = true) ∧
    (((get_scores c7State [.fcst] 0 .no 0).isOk = true →
      ∀ p, p < (jointValidIdx (flatCurrs c7State [.fcst] 0 .no 0)).length →
        ∃ a b : ℚ,
          (sliceArr (fieldArrOf c7State .fcst 0) c7State.times c7State.months c7State.years
            .no 0).val ((jointValidIdx (flatCurrs c7State [.fcst] 0 .no 0)).getD p 0) = .num a ∧
          (sliceArr (climArrOf c7State) c7State.times c7State.months c7State.years
            .no 0).val ((jointValidIdx (flatCurrs c7State [.fcst] 0 .no 0)).getD p 0) = .num b ∧
          ((scoresOfFlat (get_scores c7State [.fcst] 0 .no 0)).headD default).val p =
            .num (a - b)) ∧
    ((get_scores c7State [.obs] 0 .no 0).isOk = true →
      ∀ p, p < (jointValidIdx (flatCurrs c7State [.obs] 0 .no 0)).length →
        ∃ a b : ℚ,
          (sliceArr (fieldArrOf c7State .obs 0) c7State.times c7State.months c7State.years
            .no 0).val ((jointValidIdx (flatCurrs c7State [.obs] 0 .no 0)).getD p 0) = .num a ∧
          (sliceArr (climArrOf c7State) c7State.times c7State.months c7State.years
            .no 0).val ((jointValidIdx (flatCurrs c7State [.obs] 0 .no 0)).getD p 0) = .num b ∧
          ((scoresOfFlat (get_scores c7State [.obs] 0 .no 0)).headD default).val p =
            .num (a - b)) ∧
    (∀ f : VField, f ≠ .obs → f ≠ .fcst →
      (get_scores c7State [f] 0 .no 0).isOk = true →
      ∀ p, p < (jointValidIdx (flatCurrs c7State [f] 0 .no 0)).length →
        ((scoresOfFlat (get_scores c7State [f] 0 .no 0)).headD default).val p =
          (sliceArr (fieldArrNoClim c7State f 0) c7State.times c7State.months c7State.years
            .no 0).val ((jointValidIdx (flatCurrs c7State [f] 0 .no 0)).getD p 0))) :=
  ⟨⟨by decide, by decide, by decide, by with_unfolding_all decide,
      by with_unfolding_all decide, by decide⟩,
    claim_C7 c7State 0 .no 0 (by decide) (by decide) (by decide)⟩

/-!
## Construction: `Data.__init__`
-/

/-- CPython `is` on two freshly computed non-negative int objects (the legend
check compares `len(inputs) is not len(legend)`): identity holds exactly when
the interpreter interns the value.  CPython interns the small ints -5..256;
a `len()` result above 256 is a freshly allocated object, so two equal
lengths above 256 are NOT identical. -/
def pyIntIs (a b : ℕ) : Bool := a == b && decide (a ≤ 256)

/-- The keyword arguments of `Data.__init__`, with the signature's
defaults. -/
structure InitArgs where
  inputs : List Input
  times : Option (List ℤ) := none
  offsets : Option (List ℚ) := none
  locations : Option (List ℤ) := none
  latRange : Option (ℚ × ℚ) := none
  lonRange : Option (ℚ × ℚ) := none
  elevRange : Option (ℚ × ℚ) := none
  clim : Option Input := none
  climType : String := "subtract"
  legend : Option (List String) := none
  removeMissingAcrossAll : Bool := true
  obsField : VField := .obs
  fcstField : VField := .fcst

/-- Modelled from the spec: `verif.util.intersect` (verif/util.py is not one
of the sources under verification) — the set intersection of two id lists;
only membership and emptiness are relied on downstream, since the result is
re-intersected and re-sorted by the Index Intersector. -/
def utilIntersect (a b : List ℤ) : List ℤ := a.filter (fun x => decide (x ∈ b))

/-- The lat/lon containment test of the location filter, with the default
bounds -90..90 / -180..180 substituted for an absent range. -/
def inLatLon (latR lonR : Option (ℚ × ℚ)) (loc : Location) : Bool :=
  decide ((latR.getD (-90, 90)).1 ≤ loc.lat) && decide (loc.lat ≤ (latR.getD (-90, 90)).2) &&
    decide ((lonR.getD (-180, 180)).1 ≤ loc.lon) && decide (loc.lon ≤ (lonR.getD (-180, 180)).2)

/-- The lat/lon stage of the location filter (source lines 82-117): when a
lat or lon range is given, keep the ids of the first input's locations whose
coordinates lie within the (defaulted) bounds, intersected with the caller's
location list when one is given, and fail if nothing remains; otherwise pass
the caller's list through, or all of the first input's ids. -/
def latlonStage (locs0 : List Location) (latR lonR : Option (ℚ × ℚ))
    (locFilter : Option (List ℤ)) : Except String (List ℤ) :=
  if latR.isSome ∨ lonR.isSome then
    (if (match locFilter with
        | some ls => ls.filter (fun x =>
            decide (x ∈ (locs0.filter (inLatLon latR lonR)).map (fun loc => loc.id)))
        | none => (locs0.filter (inLatLon latR lonR)).map (fun loc => loc.id)) = [] then
      Except.error "No available locations within lat/lon range"
    else
      Except.ok (match locFilter with
        | some ls => ls.filter (fun x =>
            decide (x ∈ (locs0.filter (inLatLon latR lonR)).map (fun loc => loc.id)))
        | none => (locs0.filter (inLatLon latR lonR)).map (fun loc => loc.id)))
  else match locFilter with
    | some ls => Except.ok ls
    | none => Except.ok (locs0.map (fun loc => loc.id))

/-- The elevation stage of the location filter (source lines 119-132):
intersect with the ids of the first input's locations inside the elevation
range, failing if nothing remains. -/
def elevStage (locs0 : List Location) (elevR : Option (ℚ × ℚ)) (u : List ℤ) :
    Except String (List ℤ) :=
  match elevR with
  | none => .ok u
  | some r =>
    if utilIntersect u ((locs0.filter (fun loc =>
        decide (r.1 ≤ loc.elev) && decide (loc.elev ≤ r.2))).map (fun loc => loc.id)) = [] then
      .error "No available locations within elevation range"
    else .ok (utilIntersect u ((locs0.filter (fun loc =>
        decide (r.1 ≤ loc.elev) && decide (loc.elev ≤ r.2))).map (fun loc => loc.id)))

/-- The lat/lon and elevation location filtering of `Data.__init__` (source
lines 82-132), which reads coordinates ONLY from the first input's location
list (`self._inputs[0].locations`, the climatology input being appended at
the end).  Returns the `use_locationss` id list; the error branches are the
`verif.util.error` calls for empty filter results. -/
def geoFilter (locs0 : List Location) (latR lonR elevR : Option (ℚ × ℚ))
    (locFilter : Option (List ℤ)) : Except String (List ℤ) :=
  match latlonStage locs0 latR lonR locFilter with
  | .error e => .error e
  | .ok u => elevStage locs0 elevR u

/-- The argument-validation and location-filtering prefix of `Data.__init__`:
the legend count check (`len(inputs) is not len(legend)`, CPython object
identity on ints), the climatology setup with its mode check (the
climatology input is appended at the END of the input list), then the
geographic filtering.  Returns the full input list and `use_locationss`. -/
def preFilter (args : InitArgs) : Except String (List Input × List ℤ) :=
  if args.legend.isSome ∧ ¬ pyIntIs args.inputs.length (args.legend.getD []).length = true then
    .error "Need one legend entry for each filename"
  else
    match (match args.clim with
      | none => Except.ok args.inputs
      | some c =>
        if args.climType = "subtract" ∨ args.climType = "divide" then
          Except.ok (args.inputs ++ [c])
        else Except.error "Data: clim_type must be subtract or divide") with
    | .error e => .error e
    | .ok allInputs =>
      match geoFilter (allInputs.headD default).locations args.latRange args.lonRange
          args.elevRange args.locations with
      | .error e => .error e
      | .ok u => .ok (allInputs, u)

/-- Collect the per-file index arrays; a `none` (the index-assignment loop
hitting duplicate or missing raw values) is the numpy ValueError / IndexError
crash, distinct from the `verif.util.error` configuration errors. -/
def liftOpts (l : List (Option (List ℕ))) : Except String (List (List ℕ)) :=
  match l.mapM id with
  | some ll => .ok ll
  | none => .error "ValueError: could not assign index array"

/-- `np.unique` — sorted distinct values. -/
def npUnique (l : List ℤ) : List ℤ := npSort l.dedup

/-- The common-index computation, the three emptiness checks, and the
canonical-axis construction of `Data.__init__` (source lines 134-154).
`truncMonth`/`truncYear` stand for the external calendar truncation
(`datetime.utcfromtimestamp(t).replace(day=1[, month=1])` round-trip):
months/years are the sorted distinct truncations of the canonical times.
The threshold/quantile set intersections are not represented: no claim
refers to them. -/
def dataInitCore (args : InitArgs) (truncMonth truncYear : ℤ → ℤ)
    (allInputs : List Input) (useLocs : List ℤ) : Except String DState :=
  match liftOpts (getCommonIndices (allInputs.map (fun f => f.times)) args.times) with
  | .error e => .error e
  | .ok timesI =>
  match liftOpts (getCommonIndices (allInputs.map (fun f => f.offsets)) args.offsets) with
  | .error e => .error e
  | .ok offsetsI =>
  match liftOpts (getCommonIndices (allInputs.map (fun f => f.locations.map (fun loc => loc.id)))
      (some useLocs)) with
  | .error e => .error e
  | .ok locationsI =>
  if (timesI.headD []).length = 0 then .error "No valid times selected"
  else if (offsetsI.headD []).length = 0 then .error "No valid offsets selected"
  else if (locationsI.headD []).length = 0 then .error "No valid locations selected"
  else
    .ok { inputs := allInputs,
          cache := List.replicate allInputs.length emptyCache,
          timesI := timesI, offsetsI := offsetsI, locationsI := locationsI,
          hasClim := args.clim.isSome, climType := args.climType,
          removeMissingAcrossAll := args.removeMissingAcrossAll,
          obsField := args.obsField, fcstField := args.fcstField,
          times := (timesI.headD []).map (fun i => (allInputs.headD default).times.getD i 0),
          offsets := (offsetsI.headD []).map
            (fun i => (allInputs.headD default).offsets.getD i 0),
          locationsC := (locationsI.headD []).map
            (fun i => (allInputs.headD default).locations.getD i default),
          months := npUnique (((timesI.headD []).map
            (fun i => (allInputs.headD default).times.getD i 0)).map truncMonth),
          years := npUnique (((timesI.headD []).map
            (fun i => (allInputs.headD default).times.getD i 0)).map truncYear),
          legend := args.legend }

/-- `Data.__init__`: validate arguments, filter locations, compute the common
indices per dimension, fail on empty common sets, and build the aligned
dataset state. -/
def dataInit (args : InitArgs) (truncMonth truncYear : ℤ → ℤ) : Except String DState :=
  match preFilter args with
  | .error e => .error e
  | .ok (allInputs, useLocs) => dataInitCore args truncMonth truncYear allInputs useLocs

/-- The error message of a failed computation, `none` on success. -/
def errMsgOf {α : Type} (r : Except String α) : Option String :=
  match r with
  | .error e => some e
  | .ok _ => none

/-- A minimal input, reused many times for the legend-check evaluation. -/
def c9Input : Input :=
  { times := [0], offsets := [0], locations := [⟨1, 0, 0, 0⟩], thresholds := [],
    quantiles := [], vars := [.obs, .fcst], obs := default, fcst := default,
    ensemble := default, thresholdScores := default, quantileScores := default }

/-- Construction arguments with 257 sources and a 257-entry legend. -/
def c9Args257 : InitArgs :=
  { inputs := List.replicate 257 c9Input, legend := some (List.replicate 257 "x") }

/-- Construction arguments with 2 sources and a 2-entry legend. -/
def c9Args2 : InitArgs :=
  { inputs := List.replicate 2 c9Input, legend := some ["a", "b"] }

set_option maxRecDepth 8000 in
/-- Claim C9 fails on the code (defect): the legend check is
`len(inputs) is not len(legend)`, Python object IDENTITY rather than
numeric equality.  CPython interns only the ints -5..256, so for 257 sources
with a 257-entry legend the two equal lengths are distinct objects and
construction aborts with the legend ConfigurationError even though the
counts match; for small equal counts (here 2) the check passes. -/
theorem claim_C9_code_bug :
    errMsgOf (dataInit c9Args257 id id) = some "Need one legend entry for each filename" ∧
    c9Args257.inputs.length = (c9Args257.legend.getD []).length ∧
    errMsgOf (dataInit c9Args2 id id) = none :=
  ⟨by decide, by decide, by with_unfolding_all decide⟩

theorem mapM_id_some {γ : Type} (l : List (Option γ)) (h : ∀ x ∈ l, x.isSome = true) :
    ∃ ll, l.mapM id = some ll := by
  induction l with
  | nil => exact ⟨[], rfl⟩
  | cons x t ih =>
    obtain ⟨y, hy⟩ := Option.isSome_iff_exists.mp (h x (List.mem_cons_self x t))
    obtain ⟨ll, hll⟩ := ih (fun z hz => h z (List.mem_cons_of_mem x hz))
    refine ⟨y :: ll, ?_⟩
    rw [List.mapM_cons, hy, hll]
    rfl

theorem liftOpts_getCommonIndices {α : Type} [LinearOrder α] (f0 : List α)
    (frest : List (List α)) (aux : Option (List α))
    (hnd : ∀ f ∈ f0 :: frest, f.Nodup) :
    ∃ II0 ll, liftOpts (getCommonIndices (f0 :: frest) aux) = .ok (II0 :: ll) ∧
      II0.length = (commonValues (f0 :: frest) aux).length := by
  have hsub : ∀ f ∈ f0 :: frest, ∀ x ∈ commonValues (f0 :: frest) aux, x ∈ f := by
    intro f hf x hx
    exact ((mem_commonValues _ aux (by simp) x).mp hx).1 f hf
  have hndv := nodup_commonValues (f0 :: frest) aux (by simp) hnd
  obtain ⟨II0, h0, hmap⟩ := mkII_spec f0 (commonValues (f0 :: frest) aux)
    (hnd f0 (List.mem_cons_self f0 frest)) hndv (hsub f0 (List.mem_cons_self f0 frest))
  have hlen0 : II0.length = (commonValues (f0 :: frest) aux).length := by
    have h2 := congrArg List.length hmap
    simpa using h2
  have hrest : ∀ x ∈ frest.map (fun temp => mkII temp (commonValues (f0 :: frest) aux)),
      x.isSome = true := by
    intro x hx
    obtain ⟨f, hf, hfx⟩ := List.mem_map.mp hx
    obtain ⟨II, hII, _⟩ := mkII_spec f (commonValues (f0 :: frest) aux)
      (hnd f (List.mem_cons_of_mem f0 hf)) hndv (hsub f (List.mem_cons_of_mem f0 hf))
    rw [← hfx, hII]
    rfl
  obtain ⟨ll, hll⟩ := mapM_id_some _ hrest
  refine ⟨II0, ll, ?_, hlen0⟩
  unfold liftOpts getCommonIndices
  dsimp only
  rw [List.map_cons, List.mapM_cons]
  rw [show (id (mkII f0 (commonValues (f0 :: frest) aux)) : Option (List ℕ)) =
    some II0 from h0]
  rw [hll]
  rfl

/-- Claim C5: construction fails with the corresponding configuration error
whenever the common index set of times, offsets, or locations is empty after
intersection across all sources and application of the optional filters;
when all three common sets are non-empty, construction does not fail on this
condition, and the canonical times, offsets and locations of the built
dataset are non-empty.  Raw dimension sequences are assumed duplicate-free
(as in C1) so that the index-assignment loop is well-defined. -/
theorem claim_C5 (args : InitArgs) (tm ty : ℤ → ℤ) (allInputs : List Input) (useLocs : List ℤ)
    (hpre : preFilter args = .ok (allInputs, useLocs))
    (hne : allInputs ≠ [])
    (hndt : ∀ inp ∈ allInputs, inp.times.Nodup)
    (hndo : ∀ inp ∈ allInputs, inp.offsets.Nodup)
    (hndl : ∀ inp ∈ allInputs, (inp.locations.map (fun loc => loc.id)).Nodup) :
    (∀ st, dataInit args tm ty = .ok st →
      st.times ≠ [] ∧ st.offsets ≠ [] ∧ st.locationsC ≠ []) ∧
    ((commonValues (allInputs.map (fun f => f.times)) args.times = [] ∨
      commonValues (allInputs.map (fun f => f.offsets)) args.offsets = [] ∨
      commonValues (allInputs.map (fun f => f.locations.map (fun loc => loc.id)))
        (some useLocs) = []) →
      (dataInit args tm ty = .error "No valid times selected" ∨
       dataInit args tm ty = .error "No valid offsets selected" ∨
       dataInit args tm ty = .error "No valid locations selected")) ∧
    ((commonValues (allInputs.map (fun f => f.times)) args.times ≠ [] ∧
      commonValues (allInputs.map (fun f => f.offsets)) args.offsets ≠ [] ∧
      commonValues (allInputs.map (fun f => f.locations.map (fun loc => loc.id)))
        (some useLocs) ≠ []) →
      (dataInit args tm ty).isOk = true) := by
  have hdi : dataInit args tm ty = dataInitCore args tm ty allInputs useLocs := by
    unfold dataInit
    rw [hpre]
  rcases allInputs with _ | ⟨a0, arest⟩
  · exact absurd rfl hne
  obtain ⟨IIt, llt, hTeq, hTlen⟩ := liftOpts_getCommonIndices a0.times
    (arest.map (fun f => f.times)) args.times (by
      intro f hf
      rcases List.mem_cons.mp hf with rfl | hf2
      · exact hndt a0 (List.mem_cons_self _ _)
      · obtain ⟨inp, hinp, rfl⟩ := List.mem_map.mp hf2
        exact hndt inp (List.mem_cons_of_mem _ hinp))
  obtain ⟨IIo, llo, hOeq, hOlen⟩ := liftOpts_getCommonIndices a0.offsets
    (arest.map (fun f => f.offsets)) args.offsets (by
      intro f hf
      rcases List.mem_cons.mp hf with rfl | hf2
      · exact hndo a0 (List.mem_cons_self _ _)
      · obtain ⟨inp, hinp, rfl⟩ := List.mem_map.mp hf2
        exact hndo inp (List.mem_cons_of_mem _ hinp))
  obtain ⟨IIl, lll, hLeq, hLlen⟩ := liftOpts_getCommonIndices
    (a0.locations.map (fun loc => loc.id))
    (arest.map (fun f => f.locations.map (fun loc => loc.id))) (some useLocs) (by
      intro f hf
      rcases List.mem_cons.mp hf with rfl | hf2
      · exact hndl a0 (List.mem_cons_self _ _)
      · obtain ⟨inp, hinp, rfl⟩ := List.mem_map.mp hf2
        exact hndl inp (List.mem_cons_of_mem _ hinp))
  rw [hdi]
  unfold dataInitCore
  simp only [List.map_cons]
  rw [hTeq, hOeq, hLeq]
  dsimp only
  simp only [List.headD_cons]
  refine ⟨?_, ?_, ?_⟩
  · intro st hst
    split at hst
    · exact Except.noConfusion hst
    · split at hst
      · exact Except.noConfusion hst
      · split at hst
        · exact Except.noConfusion hst
        · injection hst with h2
          rw [← h2]
          rename_i ht ho hl
          refine ⟨?_, ?_, ?_⟩
          · intro hnil
            exact ht (by rw [List.map_eq_nil.mp hnil]; rfl)
          · intro hnil
            exact ho (by rw [List.map_eq_nil.mp hnil]; rfl)
          · intro hnil
            exact hl (by rw [List.map_eq_nil.mp hnil]; rfl)
  · intro hdisj
    rcases hdisj with hx | hx | hx
    · rw [hx] at hTlen
      simp only [List.length_nil] at hTlen
      rw [if_pos hTlen]
      exact Or.inl rfl
    · by_cases ht0 : IIt.length = 0
      · rw [if_pos ht0]
        exact Or.inl rfl
      · rw [hx] at hOlen
        simp only [List.length_nil] at hOlen
        rw [if_neg ht0, if_pos hOlen]
        exact Or.inr (Or.inl rfl)
    · by_cases ht0 : IIt.length = 0
      · rw [if_pos ht0]
        exact Or.inl rfl
      · by_cases ho0 : IIo.length = 0
        · rw [if_neg ht0, if_pos ho0]
          exact Or.inr (Or.inl rfl)
        · rw [hx] at hLlen
          simp only [List.length_nil] at hLlen
          rw [if_neg ht0, if_neg ho0, if_pos hLlen]
          exact Or.inr (Or.inr rfl)
  · rintro ⟨h1, h2, h3⟩
    have ht0 : ¬ IIt.length = 0 := by
      rw [hTlen]
      intro hc
      exact h1 (List.eq_nil_of_length_eq_zero hc)
    have ho0 : ¬ IIo.length = 0 := by
      rw [hOlen]
      intro hc
      exact h2 (List.eq_nil_of_length_eq_zero hc)
    have hl0 : ¬ IIl.length = 0 := by
      rw [hLlen]
      intro hc
      exact h3 (List.eq_nil_of_length_eq_zero hc)
    rw [if_neg ht0, if_neg ho0, if_neg hl0]
    rfl

/-- First source for the construction witness: times 100, 200, 300. -/
def c5InputA : Input :=
  { times := [100, 200, 300], offsets := [0], locations := [⟨1, 0, 0, 0⟩], thresholds := [],
    quantiles := [], vars := [.obs, .fcst], obs := default, fcst := default,
    ensemble := default, thresholdScores := default, quantileScores := default }

/-- Second source for the construction witness: times 200, 300, 400. -/
def c5InputB : Input :=
  { times := [200, 300, 400], offsets := [0], locations := [⟨1, 0, 0, 0⟩], thresholds := [],
    quantiles := [], vars := [.obs, .fcst], obs := default, fcst := default,
    ensemble := default, thresholdScores := default, quantileScores := default }

/-- Construction arguments for the witness: two sources, no filters. -/
def c5Args : InitArgs := { inputs := [c5InputA, c5InputB] }

/-- Concrete instantiation of `claim_C5` on two partially overlapping
sources; the hypotheses are discharged by computation. -/
theorem claim_C5_witness :
    (preFilter c5Args = .ok ([c5InputA, c5InputB], [1]) ∧
      ([c5InputA, c5InputB] : List Input) ≠ [] ∧
      (∀ inp ∈ [c5InputA, c5InputB], inp.times.Nodup) ∧
      (∀ inp ∈ [c5InputA, c5InputB], inp.offsets.Nodup) ∧
      (∀ inp ∈ [c5InputA, c5InputB], (inp.locations.map (fun loc => loc.id)).Nodup)) ∧
    ((∀ st, dataInit c5Args id id = .ok st →
      st.times ≠ [] ∧ st.offsets ≠ [] ∧ st.locationsC ≠ []) ∧
    ((commonValues (([c5InputA, c5InputB] : List Input).map (fun f => f.times)) c5Args.times = [] ∨
      commonValues (([c5InputA, c5InputB] : List Input).map (fun f => f.offsets)) c5Args.offsets = [] ∨
      commonValues (([c5InputA, c5InputB] : List Input).map
        (fun f => f.locations.map (fun loc => loc.id))) (some [1]) = []) →
      (dataInit c5Args id id = .error "No valid times selected" ∨
       dataInit c5Args id id = .error "No valid offsets selected" ∨
       dataInit c5Args id id = .error "No valid locations selected")) ∧
    ((commonValues (([c5InputA, c5InputB] : List Input).map (fun f => f.times)) c5Args.times ≠ [] ∧
      commonValues (([c5InputA, c5InputB] : List Input).map (fun f => f.offsets)) c5Args.offsets ≠ [] ∧
      commonValues (([c5InputA, c5InputB] : List Input).map
        (fun f => f.locations.map (fun loc => loc.id))) (some [1]) ≠ []) →
      (dataInit c5Args id id).isOk = true)) :=
  ⟨⟨rfl, List.cons_ne_nil _ _, by decide, by decide, by decide⟩,
    claim_C5 c5Args id id [c5InputA, c5InputB] [1] rfl (List.cons_ne_nil _ _) (by decide)
      (by decide) (by decide)⟩

theorem preFilter_geo {args : InitArgs} {allInputs : List Input} {useLocs : List ℤ}
    (h : preFilter args = .ok (allInputs, useLocs)) :
    geoFilter (allInputs.headD default).locations args.latRange args.lonRange
      args.elevRange args.locations = .ok useLocs := by
  unfold preFilter at h
  split at h
  · exact Except.noConfusion h
  · cases hc : (match args.clim with
        | none => Except.ok args.inputs
        | some c =>
          if args.climType = "subtract" ∨ args.climType = "divide" then
            Except.ok (args.inputs ++ [c])
          else Except.error "Data: clim_type must be subtract or divide" :
        Except String (List Input)) with
    | error e => rw [hc] at h; exact Except.noConfusion h
    | ok ai =>
      rw [hc] at h
      dsimp only at h
      cases hg : geoFilter (ai.headD default).locations args.latRange args.lonRange
          args.elevRange args.locations with
      | error e => rw [hg] at h; exact Except.noConfusion h
      | ok u =>
        rw [hg] at h
        dsimp only at h
        injection h with h2
        injection h2 with h3 h4
        rw [← h3, ← h4]
        exact hg

theorem mem_filter_map_id (locs0 : List Location) (p : Location → Bool) (x : ℤ) :
    x ∈ (locs0.filter p).map (fun loc => loc.id) ↔
      ∃ loc ∈ locs0, loc.id = x ∧ p loc = true := by
  rw [List.mem_map]
  constructor
  · rintro ⟨loc, hmem, hid⟩
    rw [List.mem_filter] at hmem
    exact ⟨loc, hmem.1, hid, hmem.2⟩
  · rintro ⟨loc, h1, h2, h3⟩
    exact ⟨loc, List.mem_filter.mpr ⟨h1, h3⟩, h2⟩

theorem exists_id_merge {locs0 : List Location}
    (hnd : (locs0.map (fun loc => loc.id)).Nodup)
    (p q : Location → Prop) (x : ℤ) :
    ((∃ loc ∈ locs0, loc.id = x ∧ p loc) ∧ ∃ loc ∈ locs0, loc.id = x ∧ q loc) ↔
      ∃ loc ∈ locs0, loc.id = x ∧ p loc ∧ q loc := by
  constructor
  · rintro ⟨⟨la, hma, hia, hpa⟩, ⟨lb, hmb, hib, hqb⟩⟩
    have heq : la = lb := List.inj_on_of_nodup_map hnd hma hmb (by rw [hia, hib])
    exact ⟨la, hma, hia, hpa, heq ▸ hqb⟩
  · rintro ⟨loc, hm, hi, hp, hq⟩
    exact ⟨⟨loc, hm, hi, hp⟩, ⟨loc, hm, hi, hq⟩⟩

theorem latlonStage_mem_pos (locs0 : List Location) (latR lonR : Option (ℚ × ℚ))
    (locFilter : Option (List ℤ)) (u1 : List ℤ)
    (hll : latR.isSome ∨ lonR.isSome)
    (h : latlonStage locs0 latR lonR locFilter = .ok u1) (x : ℤ) :
    x ∈ u1 ↔ (∀ ls, locFilter = some ls → x ∈ ls) ∧
      ∃ loc ∈ locs0, loc.id = x ∧ inLatLon latR lonR loc = true := by
  unfold latlonStage at h
  rw [if_pos hll] at h
  split at h
  · exact Except.noConfusion h
  · injection h with h2
    rw [← h2]
    cases hfo : locFilter with
    | some ls =>
      simp only [hfo]
      constructor
      · intro hx
        rw [List.mem_filter, decide_eq_true_eq, mem_filter_map_id] at hx
        obtain ⟨hxls, loc, hm, hi, hp⟩ := hx
        exact ⟨fun ls' heq => by injection heq with he; rw [← he]; exact hxls,
          loc, hm, hi, hp⟩
      · rintro ⟨hforall, loc, hm, hi, hp⟩
        rw [List.mem_filter, decide_eq_true_eq, mem_filter_map_id]
        exact ⟨hforall ls rfl, loc, hm, hi, hp⟩
    | none =>
      simp only [hfo]
      rw [mem_filter_map_id]
      constructor
      · rintro ⟨loc, hm, hi, hp⟩
        exact ⟨fun ls' heq => Option.noConfusion heq, loc, hm, hi, hp⟩
      · rintro ⟨_, loc, hm, hi, hp⟩
        exact ⟨loc, hm, hi, hp⟩

theorem latlonStage_neg (locs0 : List Location) (latR lonR : Option (ℚ × ℚ))
    (locFilter : Option (List ℤ)) (hll : ¬ (latR.isSome ∨ lonR.isSome)) :
    latlonStage locs0 latR lonR locFilter =
      (match locFilter with
       | some ls => .ok ls
       | none => .ok (locs0.map (fun loc => loc.id))) := by
  unfold latlonStage
  rw [if_neg hll]

theorem elevStage_mem_some (locs0 : List Location) (r : ℚ × ℚ) (u u2 : List ℤ)
    (h : elevStage locs0 (some r) u = .ok u2) (x : ℤ) :
    x ∈ u2 ↔ x ∈ u ∧ ∃ loc ∈ locs0, loc.id = x ∧
      (decide (r.1 ≤ loc.elev) && decide (loc.elev ≤ r.2)) = true := by
  unfold elevStage at h
  dsimp only at h
  split at h
  · exact Except.noConfusion h
  · injection h with h2
    rw [← h2]
    unfold utilIntersect
    rw [List.mem_filter, decide_eq_true_eq, mem_filter_map_id]

theorem geoFilter_mem (locs0 : List Location) (latR lonR elevR : Option (ℚ × ℚ))
    (locFilter : Option (List ℤ)) (u : List ℤ)
    (hnd : (locs0.map (fun loc => loc.id)).Nodup)
    (hgiven : latR.isSome ∨ lonR.isSome ∨ elevR.isSome)
    (h : geoFilter locs0 latR lonR elevR locFilter = .ok u) :
    ∀ x : ℤ, x ∈ u ↔
      ((∀ ls, locFilter = some ls → x ∈ ls) ∧
        ∃ loc ∈ locs0, loc.id = x ∧
          ((latR.isSome ∨ lonR.isSome) → inLatLon latR lonR loc = true) ∧
          (∀ r, elevR = some r →
            (decide (r.1 ≤ loc.elev) && decide (loc.elev ≤ r.2)) = true)) := by
  intro x
  unfold geoFilter at h
  cases h1 : latlonStage locs0 latR lonR locFilter with
  | error e => rw [h1] at h; exact Except.noConfusion h
  | ok u1 =>
    rw [h1] at h
    dsimp only at h
    by_cases hll : latR.isSome ∨ lonR.isSome
    · have hm1 := latlonStage_mem_pos locs0 latR lonR locFilter u1 hll h1 x
      cases helev : elevR with
      | none =>
        rw [helev] at h
        unfold elevStage at h
        injection h with h2
        rw [← h2, hm1]
        constructor
        · rintro ⟨hf, loc, hmm, hi, hp⟩
          exact ⟨hf, loc, hmm, hi, fun _ => hp, fun r hr => Option.noConfusion hr⟩
        · rintro ⟨hf, loc, hmm, hi, hImp, _⟩
          exact ⟨hf, loc, hmm, hi, hImp hll⟩
      | some r =>
        rw [helev] at h
        have hm2 := elevStage_mem_some locs0 r u1 u h x
        rw [hm2, hm1]
        constructor
        · rintro ⟨⟨hf, hex1⟩, hex2⟩
          obtain ⟨loc, hmm, hi, hp, hq⟩ := (exists_id_merge hnd
            (fun loc => inLatLon latR lonR loc = true)
            (fun loc => (decide (r.1 ≤ loc.elev) && decide (loc.elev ≤ r.2)) = true)
            x).mp ⟨hex1, hex2⟩
          exact ⟨hf, loc, hmm, hi, fun _ => hp,
            fun r' hr => by injection hr with he; rw [← he]; exact hq⟩
        · rintro ⟨hf, loc, hmm, hi, hImp, hE⟩
          exact ⟨⟨hf, loc, hmm, hi, hImp hll⟩, loc, hmm, hi, hE r rfl⟩
    · have helevS : elevR.isSome := by
        rcases hgiven with hx | hx | hx
        · exact absurd (Or.inl hx) hll
        · exact absurd (Or.inr hx) hll
        · exact hx
      obtain ⟨r, helev⟩ := Option.isSome_iff_exists.mp helevS
      subst helev
      have hm2 := elevStage_mem_some locs0 r u1 u h x
      rw [latlonStage_neg locs0 latR lonR _ hll] at h1
      cases hfo : locFilter with
      | some ls =>
        rw [hfo] at h1
        dsimp only at h1
        injection h1 with h2
        rw [hm2, ← h2]
        constructor
        · rintro ⟨hxls, loc, hmm, hi, hq⟩
          exact ⟨fun ls' heq => by injection heq with he; rw [← he]; exact hxls,
            loc, hmm, hi, fun hc => absurd hc hll,
            fun r' hr => by injection hr with he; rw [← he]; exact hq⟩
        · rintro ⟨hf, loc, hmm, hi, _, hE⟩
          exact ⟨hf ls rfl, loc, hmm, hi, hE r rfl⟩
      | none =>
        rw [hfo] at h1
        dsimp only at h1
        injection h1 with h2
        rw [hm2, ← h2]
        rw [List.mem_map]
        constructor
        · rintro ⟨⟨loc1, hm1b, hi1⟩, loc, hmm, hi, hq⟩
          exact ⟨fun ls' heq => Option.noConfusion heq,
            loc, hmm, hi, fun hc => absurd hc hll,
            fun r' hr => by injection hr with he; rw [← he]; exact hq⟩
        · rintro ⟨_, loc, hmm, hi, _, hE⟩
          exact ⟨⟨loc, hmm, hi⟩, loc, hmm, hi, hE r rfl⟩

theorem headD_append_single (l : List Input) (c d : Input) (hne : l ≠ []) :
    (l ++ [c]).headD d = l.headD d := by
  cases l with
  | nil => exact absurd rfl hne
  | cons a t => rfl

theorem preFilter_head {args : InitArgs} {allInputs : List Input} {useLocs : List ℤ}
    (h : preFilter args = .ok (allInputs, useLocs)) (hne : args.inputs ≠ []) :
    allInputs.headD default = args.inputs.headD default := by
  unfold preFilter at h
  split at h
  · exact Except.noConfusion h
  · cases hcl : args.clim with
    | none =>
      rw [hcl] at h
      dsimp only at h
      cases hg : geoFilter ((args.inputs.headD default)).locations args.latRange args.lonRange
          args.elevRange args.locations with
      | error e =>
        rw [hg] at h
        exact Except.noConfusion h
      | ok u =>
        rw [hg] at h
        dsimp only at h
        injection h with h2
        injection h2 with h3 h4
        rw [← h3]
    | some c =>
      rw [hcl] at h
      dsimp only at h
      by_cases hct : args.climType = "subtract" ∨ args.climType = "divide"
      · rw [if_pos hct] at h
        dsimp only at h
        cases hg : geoFilter (((args.inputs ++ [c]).headD default)).locations args.latRange
            args.lonRange args.elevRange args.locations with
        | error e =>
          rw [hg] at h
          exact Except.noConfusion h
        | ok u =>
          rw [hg] at h
          dsimp only at h
          injection h with h2
          injection h2 with h3 h4
          rw [← h3]
          exact headD_append_single args.inputs c default hne
      · rw [if_neg hct] at h
        exact Except.noConfusion h

/-- C10: when any of latRange, lonRange or elevRange is given to construction,
the surviving location-id set `use_locationss` is characterised solely by the
FIRST input source's location list: an id `x` survives exactly when it passes
the caller's explicit location filter (if any) and the first source has a
location with id `x` whose lat/lon lie inside the given ranges (each range
defaulting to -90..90 / -180..180 when only the other is supplied) and whose
elevation lies inside the elevation range when one is given.  The coordinates
the other sources record for the same id never appear in the
characterisation. -/
theorem claim_C10 (args : InitArgs) (allInputs : List Input) (useLocs : List ℤ)
    (hne : args.inputs ≠ [])
    (hnd : (((args.inputs.headD default).locations).map (fun loc => loc.id)).Nodup)
    (hgiven : args.latRange.isSome ∨ args.lonRange.isSome ∨ args.elevRange.isSome)
    (h : preFilter args = .ok (allInputs, useLocs)) :
    ∀ x : ℤ, x ∈ useLocs ↔
      ((∀ ls, args.locations = some ls → x ∈ ls) ∧
        ∃ loc ∈ (args.inputs.headD default).locations, loc.id = x ∧
          ((args.latRange.isSome ∨ args.lonRange.isSome) →
            inLatLon args.latRange args.lonRange loc = true) ∧
          (∀ r, args.elevRange = some r →
            (decide (r.1 ≤ loc.elev) && decide (loc.elev ≤ r.2)) = true)) := by
  have hg := preFilter_geo h
  rw [preFilter_head h hne] at hg
  exact geoFilter_mem _ _ _ _ _ _ hnd hgiven hg

/-- First source for the geographic-filter witness: three locations; id 2 is
outside the lat range, id 3 is outside the elevation range. -/
def c10InputA : Input :=
  { times := [100], offsets := [0], locations := [⟨1, 5, 0, 100⟩, ⟨2, 50, 0, 100⟩, ⟨3, 5, 0, 900⟩],
    thresholds := [], quantiles := [], vars := [.obs, .fcst], obs := default, fcst := default,
    ensemble := default, thresholdScores := default, quantileScores := default }

/-- Second source for the geographic-filter witness: it records IN-RANGE
coordinates for id 2, which is nevertheless filtered out, because only the
first source's coordinates are consulted. -/
def c10InputB : Input :=
  { times := [100], offsets := [0], locations := [⟨2, 5, 0, 100⟩],
    thresholds := [], quantiles := [], vars := [.obs, .fcst], obs := default, fcst := default,
    ensemble := default, thresholdScores := default, quantileScores := default }

/-- Construction arguments for the geographic-filter witness: a lat range and
an elevation range. -/
def c10Args : InitArgs :=
  { inputs := [c10InputA, c10InputB], latRange := some (0, 10), elevRange := some (0, 500) }

/-- Concrete instantiation of `claim_C10`: with lat range 0..10 and elevation
range 0..500 the surviving set is `[1]`, and the characterisation is evaluated
at id 2, which the second source places in range but the first does not. -/
theorem claim_C10_witness :
    (c10Args.inputs ≠ [] ∧
      (((c10Args.inputs.headD default).locations).map (fun loc => loc.id)).Nodup ∧
      (c10Args.latRange.isSome ∨ c10Args.lonRange.isSome ∨ c10Args.elevRange.isSome) ∧
      preFilter c10Args = .ok ([c10InputA, c10InputB], [1])) ∧
    ((2 : ℤ) ∈ ([1] : List ℤ) ↔
      ((∀ ls, c10Args.locations = some ls → (2 : ℤ) ∈ ls) ∧
        ∃ loc ∈ (c10Args.inputs.headD default).locations, loc.id = 2 ∧
          ((c10Args.latRange.isSome ∨ c10Args.lonRange.isSome) →
            inLatLon c10Args.latRange c10Args.lonRange loc = true) ∧
          (∀ r, c10Args.elevRange = some r →
            (decide (r.1 ≤ loc.elev) && decide (loc.elev ≤ r.2)) = true))) :=
  ⟨⟨List.cons_ne_nil _ _, by decide, by decide, rfl⟩,
    claim_C10 c10Args [c10InputA, c10InputB] [1] (List.cons_ne_nil _ _) (by decide)
      (by decide) rfl 2⟩
